import Mathlib

/-!
A shallow embedding of the core of `sellout.py` (a single-user IndieAuth /
Micropub server): the authorization-code redemption flow (`redeem_auth_code`),
token revocation (`Token.post`, revoke branch), and the content codec
(`post2json`, `json2post`, `delete_props`, `delete_vals`, `micropub_create`,
`micropub_update`).

Python dicts are modelled as ordered association lists with
insertion-order-preserving update, mirroring CPython dict semantics.
Python `datetime` objects are modelled by `PyDateTime` at second precision
(every datetime this program constructs or stores has zero microseconds:
codes and tokens store `utcnow().isoformat()` values and the Micropub paths
use `.replace(microsecond=0)`); the parser rejects fractional seconds.
Exceptions that no handler in the relevant code path catches (`ValueError`
from `fromisoformat`, `TypeError` from naive/aware subtraction or
`None + "=="`, `binascii.Error`, `KeyError` from `del`, non-ASCII
`str.encode("ascii")`) are modelled as a distinct `uncaught` error value.
-/

namespace Sellout

set_option maxHeartbeats 1000000

/-! ### Ordered association lists (Python `dict` model) -/

/-- First value stored under key `k`, like Python `d.get(k)` / `d[k]`. -/
def lookupA {α : Type} (l : List (String × α)) (k : String) : Option α :=
  match l with
  | [] => none
  | (k', v) :: t => if k' = k then some v else lookupA t k

/-- `d[k] = v` on a Python dict: update in place if present, else append. -/
def updAssoc {α : Type} (l : List (String × α)) (k : String) (v : α) :
    List (String × α) :=
  match l with
  | [] => [(k, v)]
  | (k', v') :: t => if k' = k then (k', v) :: t else (k', v') :: updAssoc t k v

/-- `d.pop(k, None)` / `del d[k]` on a Python dict: drop the entry for `k`
(dict keys are unique, so dropping every occurrence models deletion on all
states a dict can take). -/
def eraseA {α : Type} (l : List (String × α)) (k : String) : List (String × α) :=
  match l with
  | [] => []
  | (k', v') :: t => if k' = k then eraseA t k else (k', v') :: eraseA t k

@[simp] theorem lookupA_nil {α : Type} (k : String) : lookupA ([] : List (String × α)) k = none := rfl

@[simp] theorem lookupA_cons {α : Type} (k' : String) (v : α) (t : List (String × α)) (k : String) :
    lookupA ((k', v) :: t) k = if k' = k then some v else lookupA t k := rfl

@[simp] theorem updAssoc_nil {α : Type} (k : String) (v : α) :
    updAssoc ([] : List (String × α)) k v = [(k, v)] := rfl

@[simp] theorem lookupA_updAssoc_self {α : Type} (l : List (String × α)) (k : String) (v : α) :
    lookupA (updAssoc l k v) k = some v := by
  induction l with
  | nil => simp [updAssoc, lookupA]
  | cons h t ih =>
    obtain ⟨k', v'⟩ := h
    by_cases hk : k' = k <;> simp [updAssoc, lookupA, hk, ih]

theorem lookupA_updAssoc_ne {α : Type} (l : List (String × α)) (k k' : String) (v : α)
    (h : k' ≠ k) : lookupA (updAssoc l k v) k' = lookupA l k' := by
  induction l with
  | nil =>
    simp only [updAssoc, lookupA]
    rw [if_neg (fun h' => h h'.symm)]
  | cons hd t ih =>
    obtain ⟨k0, v0⟩ := hd
    by_cases hk : k0 = k
    · subst hk
      simp only [updAssoc, if_pos rfl, lookupA]
      rw [if_neg (fun h' => h h'.symm), if_neg (fun h' => h h'.symm)]
    · simp only [updAssoc, if_neg hk, lookupA]
      by_cases hk' : k0 = k' <;> simp [hk', ih]

theorem updAssoc_of_lookup_none {α : Type} (l : List (String × α)) (k : String) (v : α)
    (h : lookupA l k = none) : updAssoc l k v = l ++ [(k, v)] := by
  induction l with
  | nil => simp [updAssoc]
  | cons hd t ih =>
    obtain ⟨k0, v0⟩ := hd
    by_cases hk : k0 = k
    · simp [lookupA, hk] at h
    · simp only [lookupA, if_neg hk] at h
      simp [updAssoc, hk, ih h]

theorem lookupA_append {α : Type} (l₁ l₂ : List (String × α)) (k : String) :
    lookupA (l₁ ++ l₂) k = ((lookupA l₁ k).rec (lookupA l₂ k) (fun v => some v) : Option α) := by
  induction l₁ with
  | nil => simp [lookupA]
  | cons hd t ih =>
    obtain ⟨k0, v0⟩ := hd
    by_cases hk : k0 = k <;> simp [lookupA, hk, ih]

@[simp] theorem lookupA_eraseA_self {α : Type} (l : List (String × α)) (k : String) :
    lookupA (eraseA l k) k = none := by
  induction l with
  | nil => rfl
  | cons hd t ih =>
    obtain ⟨k0, v0⟩ := hd
    by_cases hk : k0 = k <;> simp [eraseA, lookupA, hk, ih]

theorem lookupA_eraseA_ne {α : Type} (l : List (String × α)) (k k' : String)
    (h : k' ≠ k) : lookupA (eraseA l k) k' = lookupA l k' := by
  induction l with
  | nil => rfl
  | cons hd t ih =>
    obtain ⟨k0, v0⟩ := hd
    by_cases hk : k0 = k
    · have hne : ¬ k0 = k' := fun h' => h (h'.symm.trans hk)
      simp only [eraseA, if_pos hk, lookupA, if_neg hne, ih]
    · simp only [eraseA, if_neg hk, lookupA, ih]

theorem lookupA_eraseA_none {α : Type} (l : List (String × α)) (k k' : String)
    (h : lookupA l k' = none) : lookupA (eraseA l k) k' = none := by
  by_cases hk : k' = k
  · subst hk
    exact lookupA_eraseA_self l k'
  · rw [lookupA_eraseA_ne l k k' hk, h]

theorem keysOf_updAssoc_mem {α : Type} (l : List (String × α)) (k : String) (v : α)
    (h : lookupA l k ≠ none) :
    (updAssoc l k v).map Prod.fst = l.map Prod.fst := by
  induction l with
  | nil => simp [lookupA] at h
  | cons hd t ih =>
    obtain ⟨k0, v0⟩ := hd
    by_cases hk : k0 = k
    · simp [updAssoc, hk]
    · simp only [lookupA, if_neg hk] at h
      simp [updAssoc, hk, ih h]

/-! ### `datetime` model (second precision) -/

/-- A Python `datetime` value at second precision; `tz` is the UTC offset in
minutes (`none` = naive). -/
structure PyDateTime where
  year : Nat
  month : Nat
  day : Nat
  hour : Nat
  minute : Nat
  second : Nat
  tz : Option Int := none
  deriving DecidableEq, Repr

/-- Days in a month of the proleptic Gregorian calendar. -/
def daysInMonth (y m : Nat) : Nat :=
  if m = 2 then (if y % 4 = 0 ∧ (y % 100 ≠ 0 ∨ y % 400 = 0) then 29 else 28)
  else if m = 4 ∨ m = 6 ∨ m = 9 ∨ m = 11 then 30
  else 31

/-- Day count of a civil date from a fixed epoch (only differences matter). -/
def daysFromCivil (y m d : Nat) : Nat :=
  let y' := if m ≤ 2 then y - 1 else y
  let era := y' / 400
  let yoe := y' % 400
  let mp := (m + 9) % 12
  let doy := (153 * mp + 2) / 5 + d - 1
  let doe := yoe * 365 + yoe / 4 - yoe / 100 + doy
  era * 146097 + doe

/-- Seconds-from-epoch of the wall-clock fields (ignoring the offset). -/
def wallSeconds (dt : PyDateTime) : Int :=
  (daysFromCivil dt.year dt.month dt.day : Int) * 86400
    + dt.hour * 3600 + dt.minute * 60 + dt.second

/-- `a - b` on Python datetimes, in seconds.  Subtracting a naive and an
aware datetime raises `TypeError` in Python, modelled as `none`. -/
def pySub (a b : PyDateTime) : Option Int :=
  match a.tz, b.tz with
  | none, none => some (wallSeconds a - wallSeconds b)
  | some ta, some tb => some ((wallSeconds a - ta * 60) - (wallSeconds b - tb * 60))
  | _, _ => none

def twoDigit (a b : Char) : Option Nat :=
  if a.isDigit ∧ b.isDigit then some ((a.toNat - 48) * 10 + (b.toNat - 48)) else none

def fourDigit (a b c d : Char) : Option Nat :=
  match twoDigit a b, twoDigit c d with
  | some hi, some lo => some (hi * 100 + lo)
  | _, _ => none

/-- Parse a trailing `±HH:MM` UTC offset (empty input means naive). -/
def parseTzSuffix (cs : List Char) : Option (Option Int) :=
  match cs with
  | [] => some none
  | '+' :: h1 :: h2 :: ':' :: m1 :: m2 :: [] =>
    match twoDigit h1 h2, twoDigit m1 m2 with
    | some h, some m => if h ≤ 23 ∧ m ≤ 59 then some (some ((h : Int) * 60 + m)) else none
    | _, _ => none
  | '-' :: h1 :: h2 :: ':' :: m1 :: m2 :: [] =>
    match twoDigit h1 h2, twoDigit m1 m2 with
    | some h, some m => if h ≤ 23 ∧ m ≤ 59 then some (some (-((h : Int) * 60 + m))) else none
    | _, _ => none
  | _ => none

/-- Parse the time-of-day & offset part after `YYYY-MM-DDT`. -/
def parseTimePart (y mo dy : Nat) (cs : List Char) : Option PyDateTime :=
  match cs with
  | h1 :: h2 :: ':' :: mi1 :: mi2 :: rest =>
    match twoDigit h1 h2, twoDigit mi1 mi2 with
    | some h, some mi =>
      if h ≤ 23 ∧ mi ≤ 59 then
        match rest with
        | [] => some ⟨y, mo, dy, h, mi, 0, none⟩
        | ':' :: s1 :: s2 :: rest2 =>
          match twoDigit s1 s2 with
          | some se =>
            if se ≤ 59 then
              match parseTzSuffix rest2 with
              | some tz => some ⟨y, mo, dy, h, mi, se, tz⟩
              | none => none
            else none
          | none => none
        | _ =>
          match parseTzSuffix rest with
          | some tz => some ⟨y, mo, dy, h, mi, 0, tz⟩
          | none => none
      else none
    | _, _ => none
  | _ => none

/-- Model of `datetime.fromisoformat` restricted to second precision:
accepts `YYYY-MM-DD`, optionally `THH:MM[:SS]`, optionally `±HH:MM`.
Fractional seconds are not modelled (parse failure). -/
def parseIso (s : String) : Option PyDateTime :=
  match s.toList with
  | y1 :: y2 :: y3 :: y4 :: '-' :: m1 :: m2 :: '-' :: d1 :: d2 :: rest =>
    match fourDigit y1 y2 y3 y4, twoDigit m1 m2, twoDigit d1 d2 with
    | some y, some mo, some dy =>
      if 1 ≤ y ∧ 1 ≤ mo ∧ mo ≤ 12 ∧ 1 ≤ dy ∧ dy ≤ daysInMonth y mo then
        match rest with
        | [] => some ⟨y, mo, dy, 0, 0, 0, none⟩
        | 'T' :: rest2 => parseTimePart y mo dy rest2
        | _ => none
      else none
    | _, _, _ => none
  | _ => none

def padNum (n width : Nat) : String :=
  let s := toString n
  String.mk (List.replicate (width - s.length) '0') ++ s

/-- Model of `datetime.isoformat(timespec='seconds')`. -/
def formatIso (dt : PyDateTime) : String :=
  padNum dt.year 4 ++ "-" ++ padNum dt.month 2 ++ "-" ++ padNum dt.day 2
    ++ "T" ++ padNum dt.hour 2 ++ ":" ++ padNum dt.minute 2 ++ ":" ++ padNum dt.second 2
    ++ (match dt.tz with
        | none => ""
        | some off =>
          (if off < 0 then "-" else "+")
            ++ padNum (off.natAbs / 60) 2 ++ ":" ++ padNum (off.natAbs % 60) 2)

/-- Model of `strftime("%Y-%m-%d-%H-%M-%S")`. -/
def strftimeYmdHMS (dt : PyDateTime) : String :=
  padNum dt.year 4 ++ "-" ++ padNum dt.month 2 ++ "-" ++ padNum dt.day 2
    ++ "-" ++ padNum dt.hour 2 ++ "-" ++ padNum dt.minute 2 ++ "-" ++ padNum dt.second 2

/-! ### Python string helpers (structurally recursive, kernel-reducible) -/

/-- Python `s.replace(c, r)` for a one-character pattern. -/
def replaceChar (s : String) (c : Char) (r : String) : String :=
  String.join (s.toList.map (fun ch => if ch = c then r else String.mk [ch]))

/-- Python whitespace (`str.strip` default set). -/
def isPySpace (c : Char) : Bool :=
  c.toNat = 32 ∨ c.toNat = 9 ∨ c.toNat = 10 ∨ c.toNat = 13 ∨ c.toNat = 11 ∨ c.toNat = 12

/-- Python `s.strip()`. -/
def pyStrip (s : String) : String :=
  String.mk (((s.toList.dropWhile isPySpace).reverse.dropWhile isPySpace).reverse)

/-! ### SHA-256 (model of `hashlib.sha256(...).digest()`) over byte lists -/

def w32 : Nat := 4294967296

def rotr32 (x n : Nat) : Nat := ((x >>> n) + ((x <<< (32 - n)) % w32)) % w32

def shaK : List Nat :=
  [1116352408, 1899447441, 3049323471, 3921009573, 961987163, 1508970993,
   2453635748, 2870763221, 3624381080, 310598401, 607225278, 1426881987,
   1925078388, 2162078206, 2614888103, 3248222580, 3835390401, 4022224774,
   264347078, 604807628, 770255983, 1249150122, 1555081692, 1996064986,
   2554220882, 2821834349, 2952996808, 3210313671, 3336571891, 3584528711,
   113926993, 338241895, 666307205, 773529912, 1294757372, 1396182291,
   1695183700, 1986661051, 2177026350, 2456956037, 2730485921, 2820302411,
   3259730800, 3345764771, 3516065817, 3600352804, 4094571909, 275423344,
   430227734, 506948616, 659060556, 883997877, 958139571, 1322822218,
   1537002063, 1747873779, 1955562222, 2024104815, 2227730452, 2361852424,
   2428436474, 2756734187, 3204031479, 3329325298]

def shaH0 : List Nat :=
  [1779033703, 3144134277, 1013904242, 2773480762,
   1359893119, 2600822924, 528734635, 1541459225]

/-- Append the SHA-256 padding to a byte string. -/
def shaPad (msg : List Nat) : List Nat :=
  let l := msg.length
  let padZeros := (64 - ((l + 9) % 64)) % 64
  let bitLen := l * 8
  msg ++ [0x80] ++ List.replicate padZeros 0
    ++ [(bitLen >>> 56) % 256, (bitLen >>> 48) % 256, (bitLen >>> 40) % 256, (bitLen >>> 32) % 256,
        (bitLen >>> 24) % 256, (bitLen >>> 16) % 256, (bitLen >>> 8) % 256, bitLen % 256]

/-- Big-endian 4-byte groups to 32-bit words. -/
def bytesToWords : List Nat → List Nat
  | a :: b :: c :: d :: rest => (a * 16777216 + b * 65536 + c * 256 + d) :: bytesToWords rest
  | _ => []

/-- Split into 16-word blocks. -/
def chunk16 (ws : List Nat) : List (List Nat) :=
  if ws.length < 16 then [] else ws.take 16 :: chunk16 (ws.drop 16)
  termination_by ws.length
  decreasing_by
    simp only [List.length_drop]
    omega

/-- Extend a 16-word block to the 64-word message schedule. -/
def shaExtend (w : Array Nat) : Array Nat :=
  (List.range 48).foldl
    (fun w i =>
      let t := i + 16
      let x15 := w.getD (t - 15) 0
      let x2 := w.getD (t - 2) 0
      let s0 := ((rotr32 x15 7) ^^^ (rotr32 x15 18)) ^^^ (x15 >>> 3)
      let s1 := ((rotr32 x2 17) ^^^ (rotr32 x2 19)) ^^^ (x2 >>> 10)
      w.push ((w.getD (t - 16) 0 + s0 + w.getD (t - 7) 0 + s1) % w32))
    w

/-- One SHA-256 compression round over the state `[a,b,c,d,e,f,g,h]`. -/
def shaRound (st : List Nat) (kw : Nat × Nat) : List Nat :=
  match st with
  | [a, b, c, d, e, f, g, h] =>
    let s1 := ((rotr32 e 6) ^^^ (rotr32 e 11)) ^^^ (rotr32 e 25)
    let ch := ((e &&& f) ^^^ ((w32 - 1 - e) &&& g)) % w32
    let t1 := (h + s1 + ch + kw.1 + kw.2) % w32
    let s0 := ((rotr32 a 2) ^^^ (rotr32 a 13)) ^^^ (rotr32 a 22)
    let mj := ((a &&& b) ^^^ (a &&& c)) ^^^ (b &&& c)
    let t2 := (s0 + mj) % w32
    [(t1 + t2) % w32, a, b, c, (d + t1) % w32, e, f, g]
  | _ => st

/-- SHA-256 digest (32 bytes) of a byte string. -/
def sha256Bytes (msg : List Nat) : List Nat :=
  let blocks := chunk16 (bytesToWords (shaPad msg))
  let st := blocks.foldl
    (fun st blk =>
      let w := shaExtend (List.toArray blk)
      let out := (shaK.zip w.toList).foldl (fun s kw => shaRound s kw) st
      (st.zip out).map (fun p => (p.1 + p.2) % w32))
    shaH0
  st.flatMap (fun wd => [(wd >>> 24) % 256, (wd >>> 16) % 256, (wd >>> 8) % 256, wd % 256])

/-- `s.encode("ascii")` succeeds only for ASCII text. -/
def asciiOnly (s : String) : Bool := s.toList.all (fun c => c.toNat < 128)

/-- Byte encoding of an ASCII string. -/
def strBytes (s : String) : List Nat := s.toList.map Char.toNat

/-! ### `base64.urlsafe_b64decode` (lenient, as used with `+ "=="`) -/

/-- The urlsafe base64 alphabet position of a character. -/
def b64Val (c : Char) : Option Nat :=
  if 'A' ≤ c ∧ c ≤ 'Z' then some (c.toNat - 65)
  else if 'a' ≤ c ∧ c ≤ 'z' then some (c.toNat - 97 + 26)
  else if '0' ≤ c ∧ c ≤ '9' then some (c.toNat - 48 + 52)
  else if c = '-' then some 62
  else if c = '_' then some 63
  else none

def b64Vals (cs : List Char) : Option (List Nat) :=
  match cs with
  | [] => some []
  | c :: t =>
    match b64Val c, b64Vals t with
    | some v, some vs => some (v :: vs)
    | _, _ => none

/-- Decode a run of 6-bit values into bytes; a trailing group of one value
is invalid ("Invalid base64-encoded string"). -/
def b64Groups (vs : List Nat) : Option (List Nat) :=
  match vs with
  | [] => some []
  | a :: b :: c :: d :: rest =>
    match b64Groups rest with
    | some bs => some ([a * 4 + b / 16, (b % 16) * 16 + c / 4, (c % 4) * 64 + d] ++ bs)
    | none => none
  | [a, b] => some [a * 4 + b / 16]
  | [a, b, c] => some [a * 4 + b / 16, (b % 16) * 16 + c / 4]
  | [_] => none

/-- Model of `base64.urlsafe_b64decode`: characters before the first `=`
are decoded; a leftover group of one 6-bit value is an error (this is the
behaviour that makes unconditionally appending `"=="` safe). -/
def urlsafe_b64decode (s : String) : Option (List Nat) :=
  match b64Vals (s.toList.takeWhile (· ≠ '=')) with
  | some vs => b64Groups vs
  | none => none

/-! ### Authorization codes: `redeem_auth_code` -/

/-- Errors of the auth endpoints.  `uncaught` stands for any Python
exception that `redeem_auth_code` / `Token.post` do not catch (it surfaces
as a 500, never as an OAuth error object). -/
inductive AuthErr where
  | unsupportedGrantType
  | invalidRequest
  | invalidGrant
  | uncaught
  deriving DecidableEq, Repr

/-- A stored authorization-code record (the `C-…` items written by `allow`).
`used` models `data.get("used", False)`; `code_challenge = none` models a
stored `None` (the key is always written by `allow`). -/
structure CodeRecord where
  token : String
  time : String
  client_id : String
  redirect_uri : String
  state : String
  code_challenge : Option String := none
  code_challenge_method : Option String := none
  scopes : List String := []
  host : String
  used : Bool := false
  deriving DecidableEq, Repr

/-- The credential store, keyed by the `token` attribute. -/
abbrev CodeStore : Type := List (String × CodeRecord)

/-- Every record is stored under its own `token` key (DynamoDB key
attribute discipline: `get_item({"token": k})` returns an item whose
`token` equals `k`). -/
def storeWf (s : CodeStore) : Bool :=
  (s : List (String × CodeRecord)).all (fun kr => kr.2.token = kr.1)

/-- The form body of a `POST /token` redemption request. -/
structure TokenForm where
  grant_type : Option String := none
  code : Option String := none
  client_id : Option String := none
  redirect_uri : Option String := none
  code_verifier : Option String := none
  deriving DecidableEq, Repr

/-- On success: mark the record used, persist it (`put_item` keys on the
record's own `token` attribute) and hand it back. -/
def redeemOk (store : CodeStore) (data : CodeRecord) :
    Except AuthErr (CodeStore × CodeRecord) :=
  .ok (updAssoc store data.token { data with used := true }, { data with used := true })

/-- The PKCE gate of `redeem_auth_code` (the `code_challenge_method ==
"S256"` block): `code_verifier` must be present (else `invalid_request`)
and its SHA-256 digest must equal the re-padded base64url-decoded stored
challenge (else `invalid_grant`). -/
def pkceCheck (data : CodeRecord) (verifier : Option String) : Except AuthErr Unit :=
  if data.code_challenge_method = some "S256" then
    match verifier with
    | none => .error .invalidRequest
    | some v =>
      match data.code_challenge with
      | none => .error .uncaught
      | some chal =>
        if ¬ asciiOnly v then .error .uncaught
        else
          match urlsafe_b64decode (chal ++ "==") with
          | none => .error .uncaught
          | some expected =>
            if sha256Bytes (strBytes v) ≠ expected then .error .invalidGrant
            else .ok ()
  else .ok ()

/-- `redeem_auth_code` (src/sellout.py lines 237–268).  `now` is
`datetime.utcnow()` (naive), `host` the serving `Host` header.  On success
returns the updated store (the record persisted with `used = True`) and the
record that the caller mints a bearer token from. -/
def redeem_auth_code (store : CodeStore) (now : PyDateTime) (host : String)
    (form : TokenForm) : Except AuthErr (CodeStore × CodeRecord) :=
  if form.grant_type ≠ some "authorization_code" then .error .unsupportedGrantType
  else match form.code, form.client_id, form.redirect_uri with
    | some code, some client_id, some redirect_uri =>
      (match lookupA store ("C-" ++ code) with
       | none => .error .invalidGrant
       | some data =>
         match parseIso data.time with
         | none => .error .uncaught
         | some t =>
           match pySub now t with
           | none => .error .uncaught
           | some diff =>
             if diff > 300 ∨ client_id ≠ data.client_id ∨ redirect_uri ≠ data.redirect_uri
                 ∨ data.used = true ∨ data.host ≠ host then
               .error .invalidGrant
             else
               match pkceCheck data form.code_verifier with
               | .error e => .error e
               | .ok _ => redeemOk store data)
    | _, _, _ => .error .invalidRequest

/-! ### Token revocation: the `action=revoke` branch of `Token.post` -/

/-- A stored bearer-token record (the `B-…` items). -/
structure TokenRecord where
  token : String
  time : String
  code_used : String
  client_id : String
  scopes : List String
  host : String
  revoked : Bool := false
  deriving DecidableEq, Repr

abbrev TokenStore : Type := List (String × TokenRecord)

/-- Response of the revoke branch: `200 {}` or the rendered `autherr`
page (only for first-party session callers, when the try-block raised). -/
inductive RevokeResp where
  | okEmpty
  | errPage
  deriving DecidableEq, Repr

/-- The `action=revoke` branch of `Token.post` (src/sellout.py lines
337–352).  `tokenField` is `form["token"]` (`none` when absent, which makes
the `KeyError` land in the catch-all `except`); `viaCookie` is
`has_required_scope(request, ["via_cookie"])`. -/
def revoke_token (store : TokenStore) (tokenField : Option String) (host : String)
    (viaCookie : Bool) : TokenStore × RevokeResp :=
  match tokenField with
  | none => (store, if viaCookie then .errPage else .okEmpty)
  | some tok =>
    match lookupA store ("B-" ++ tok) with
    | none => (store, if viaCookie then .errPage else .okEmpty)
    | some data =>
      if data.host = host then
        (updAssoc store data.token { data with revoked := true }, .okEmpty)
      else
        (store, .okEmpty)

/-! ### Content codec: property bags and front-matter documents -/

/-- A JSON value inside a property value list: a string, or an object with
string values (the shape `content` objects take: `{"markdown": "…"}` etc.). -/
inductive JVal where
  | js (s : String)
  | jo (kvs : List (String × String))
  deriving DecidableEq, Repr

/-- A property value in an `mf2` property bag: Python allows `None` here
("ehhh let's allow nulls why not"), hence the `Option`. -/
abbrev PropVal : Type := Option (List JVal)

/-- `properties`: an ordered mapping property-name → value list. -/
abbrev MfProps : Type := List (String × PropVal)

/-- The `MfObj` pydantic model: `type` plus `properties`. -/
structure MfObj where
  type : List String
  properties : MfProps
  deriving DecidableEq, Repr

/-- A front-matter `date`/`updated` value: tomlkit may hand back a string
or a datetime; the code re-parses strings on encode. -/
inductive DateVal where
  | ds (s : String)
  | dd (d : PyDateTime)
  deriving DecidableEq, Repr

/-- The TOML front-matter document, with the fields this program touches.
`taxonomies` and `extra` are nested tables (ordered dicts). -/
structure FrontMatter where
  title : Option JVal := none
  description : Option JVal := none
  date : Option DateVal := none
  updated : Option DateVal := none
  taxonomies : Option (List (String × List JVal)) := none
  extra : Option (List (String × List JVal)) := none
  slug : Option String := none
  deriving DecidableEq, Repr

/-- `Post = Tuple[TOMLDocument, str]`. -/
abbrev Post : Type := FrontMatter × String

/-- Errors of the content path: `DataError(400, invalid_request)` plus the
`uncaught` marker for exceptions no handler catches. -/
inductive DErr where
  | invalidRequest
  | uncaught
  deriving DecidableEq, Repr

/-- Turn a stored date value into a datetime the way `post2json` does:
`datetime.fromisoformat(s.replace('Z', '+00:00'))` for strings (a parse
failure is an uncaught `ValueError`). -/
def dateValDt (v : DateVal) : Except DErr PyDateTime :=
  match v with
  | .dd d => .ok d
  | .ds s =>
    match parseIso (replaceChar s 'Z' "+00:00") with
    | some d => .ok d
    | none => .error .uncaught

/-- The `extra` loop of `post2json`: each entry passes through with `_`→`-`
name translation. -/
def extraProps (fm : FrontMatter) : MfProps :=
  (fm.extra.getD []).foldl
    (fun ps kv => updAssoc ps (replaceChar kv.1 '_' "-") (some kv.2)) []

/-- `if "title" in fm: props["name"] = [fm["title"]]`. -/
def stepTitle (props : MfProps) (fm : FrontMatter) : MfProps :=
  match fm.title with
  | some t => updAssoc props "name" (some [t])
  | none => props

/-- `if "description" in fm: props["summary"] = [fm["description"]]`. -/
def stepDescr (props : MfProps) (fm : FrontMatter) : MfProps :=
  match fm.description with
  | some d => updAssoc props "summary" (some [d])
  | none => props

/-- `if "taxonomies" in fm and "tag" in fm["taxonomies"]: props["category"] = …`. -/
def stepCategory (props : MfProps) (fm : FrontMatter) : MfProps :=
  match fm.taxonomies with
  | some tx =>
    match lookupA tx "tag" with
    | some tags => updAssoc props "category" (some tags)
    | none => props
  | none => props

/-- `if len(content_text.strip()) > 0: props["content"] = [{"markdown": …}]`. -/
def stepContent (props : MfProps) (content_text : String) : MfProps :=
  if 0 < (pyStrip content_text).length then
    updAssoc props "content" (some [JVal.jo [("markdown", content_text)]])
  else props

/-- Tail of `post2json` after the `date`/`updated` steps: `taxonomies.tag`
becomes `category`, a non-whitespace body becomes a `content` property
tagged as markdown, and `type` is `["h-entry"]`. -/
def post2jsonFinish (props : MfProps) (fm : FrontMatter) (content_text : String) : MfObj :=
  { type := ["h-entry"], properties := stepContent (stepCategory props fm) content_text }

/-- The `updated` step of `post2json` followed by the tail. -/
def post2jsonAfterDate (props : MfProps) (fm : FrontMatter) (content_text : String) :
    Except DErr MfObj :=
  match fm.updated with
  | some dv =>
    match dateValDt dv with
    | .error e => .error e
    | .ok d =>
      .ok (post2jsonFinish (updAssoc props "updated" (some [JVal.js (formatIso d)]))
        fm content_text)
  | none => .ok (post2jsonFinish props fm content_text)

/-- `post2json` (src/sellout.py lines 564–585): encode a post as an mf2
property bag (`extra` entries first with `_`→`-` translation, then `name`,
`summary`, `published`, `updated`, `category`, `content`). -/
def post2json (post : Post) : Except DErr MfObj :=
  let (fm, content_text) := post
  let props := stepDescr (stepTitle (extraProps fm) fm) fm
  match fm.date with
  | some dv =>
    match dateValDt dv with
    | .error e => .error e
    | .ok d =>
      post2jsonAfterDate (updAssoc props "published" (some [JVal.js (formatIso d)]))
        fm content_text
  | none => post2jsonAfterDate props fm content_text

/-- One iteration of the `for k, v in props.items()` loop of
`json2post_inner` (src/sellout.py lines 588–637). -/
def j2pStep (add_mode : Bool) (post : Post) (kv : String × PropVal) :
    Except DErr Post :=
  let (fm, content_text) := post
  match kv.2 with
  | none => .ok post
  | some v =>
    match v with
    | [] => .ok post
    | v0 :: _ =>
      let k := kv.1
      if k = "name" then .ok ({ fm with title := some v0 }, content_text)
      else if k = "summary" then .ok ({ fm with description := some v0 }, content_text)
      else if k = "published" then
        match v0 with
        | .js s =>
          match parseIso (replaceChar s 'Z' "+00:00") with
          | some d => .ok ({ fm with date := some (.dd d) }, content_text)
          | none => .error .uncaught
        | .jo _ => .error .uncaught
      else if k = "updated" then
        match v0 with
        | .js s =>
          match parseIso (replaceChar s 'Z' "+00:00") with
          | some d => .ok ({ fm with updated := some (.dd d) }, content_text)
          | none => .error .uncaught
        | .jo _ => .error .uncaught
      else if k = "category" then
        let tx := fm.taxonomies.getD []
        let tx' := if add_mode ∧ (lookupA tx "tag").isSome then
            updAssoc tx "tag" ((lookupA tx "tag").getD [] ++ v)
          else
            updAssoc tx "tag" v
        .ok ({ fm with taxonomies := some tx' }, content_text)
      else if k = "content" then
        match v0 with
        | .js s => .ok (fm, s)
        | .jo kvs =>
          match lookupA kvs "text" with
          | some s => .ok (fm, s)
          | none =>
            match lookupA kvs "value" with
            | some s => .ok (fm, s)
            | none =>
              match lookupA kvs "markdown" with
              | some s => .ok (fm, s)
              | none =>
                match lookupA kvs "html" with
                | some s => .ok (fm, s)
                | none => .error .invalidRequest
      else if k = "url" then .ok post
      else
        let ex := fm.extra.getD []
        let k' := replaceChar k '-' "_"
        let ex' := if add_mode ∧ (lookupA ex k').isSome then
            updAssoc ex k' ((lookupA ex k').getD [] ++ v)
          else
            updAssoc ex k' v
        .ok ({ fm with extra := some ex' }, content_text)

/-- `json2post_inner`: apply a property mapping onto a post, in replace
(`add_mode = false`) or add (`add_mode = true`) mode. -/
def json2post_inner (post : Post) (props : MfProps) (add_mode : Bool) :
    Except DErr Post :=
  props.foldlM (j2pStep add_mode) post

/-- `json2post` (src/sellout.py lines 640–643): decode a property bag into
a fresh post. -/
def json2post (data : MfObj) : Except DErr Post :=
  json2post_inner (({} : FrontMatter), "") data.properties false

/-- One iteration of the `for k in props` loop of `delete_props`
(src/sellout.py lines 692–713). -/
def dpStep (post : Post) (k : String) : Post :=
  let (fm, content_text) := post
  if k = "name" then ({ fm with title := none }, content_text)
  else if k = "published" then post
  else if k = "updated" then ({ fm with updated := none }, content_text)
  else if k = "category" then
    match fm.taxonomies with
    | none => post
    | some tx =>
      let tx' := eraseA tx "tag"
      ({ fm with taxonomies := if tx'.length = 0 then none else some tx' }, content_text)
  else if k = "content" then (fm, "")
  else
    match fm.extra with
    | none => post
    | some ex => ({ fm with extra := some (eraseA ex (replaceChar k '-' "_")) }, content_text)

/-- `delete_props`: Micropub `delete` with a list of property names. -/
def delete_props (post : Post) (props : List String) : Post :=
  props.foldl dpStep post

/-- A value of the Micropub `delete` mapping: the code checks
`isinstance(v, list)` per entry, so non-list values must be representable. -/
inductive DelVal where
  | arr (xs : List JVal)
  | single (x : JVal)
  deriving DecidableEq, Repr

/-- One iteration of the `for k, v in props.items()` loop of `delete_vals`
(src/sellout.py lines 716–746).  Note the source's `del fm["extra"]["k"]`:
it deletes the literal key `"k"`, and raises an (uncaught) `KeyError` when
no key named `"k"` exists. -/
def dvStep (post : Post) (kv : String × DelVal) : Except DErr Post :=
  match kv.2 with
  | .single _ => .error .invalidRequest
  | .arr v =>
    let (fm, content_text) := post
    let k := kv.1
    if k = "name" ∨ k = "published" ∨ k = "updated" ∨ k = "content" then .ok post
    else if k = "category" then
      match fm.taxonomies with
      | none => .ok post
      | some tx =>
        match lookupA tx "tag" with
        | none => .ok post
        | some tags =>
          let tags' := tags.filter (fun t => ¬ t ∈ v)
          let tx' := updAssoc tx "tag" tags'
          let tx'' := if tags'.length = 0 then eraseA tx' "tag" else tx'
          .ok ({ fm with taxonomies := if tx''.length = 0 then none else some tx'' },
               content_text)
    else
      let k' := replaceChar k '-' "_"
      match fm.extra with
      | none => .ok post
      | some ex =>
        match lookupA ex k' with
        | none => .ok post
        | some xs =>
          let xs' := xs.filter (fun x => ¬ x ∈ v)
          let ex' := updAssoc ex k' xs'
          if xs'.length = 0 then
            if (lookupA ex' "k").isSome then
              .ok ({ fm with extra := some (eraseA ex' "k") }, content_text)
            else .error .uncaught
          else .ok ({ fm with extra := some ex' }, content_text)

/-- `delete_vals`: Micropub `delete` with a mapping of property names to
value lists. -/
def delete_vals (post : Post) (props : List (String × DelVal)) : Except DErr Post :=
  props.foldlM dvStep post

/-! ### `micropub_create` / `micropub_update` -/

/-- Model of python-slugify on ASCII text: lowercase, replace runs of
non-alphanumeric characters with a single `-`, trim separators. -/
def slugWords (cs : List Char) (cur : List Char) (acc : List (List Char)) :
    List (List Char) :=
  match cs with
  | [] => if cur.isEmpty then acc.reverse else (cur.reverse :: acc).reverse
  | c :: rest =>
    if c = ' ' then
      if cur.isEmpty then slugWords rest [] acc
      else slugWords rest [] (cur.reverse :: acc)
    else slugWords rest (c :: cur) acc

def slugifyStr (s : String) : String :=
  let cleaned := s.toList.map (fun c => if c.isAlphanum then c.toLower else ' ')
  String.mk (List.intercalate ['-'] (slugWords cleaned [] []))

/-- Python truthiness of the running `slug` variable (`if not slug`). -/
def slugEmpty (s : Option String) : Bool :=
  match s with
  | none => true
  | some v => v = ""

/-- `if not "date" in fm: fm["date"] = datetime.now(timezone.utc).replace(microsecond=0)`. -/
def fillDate (fm : FrontMatter) (now : PyDateTime) : FrontMatter :=
  if fm.date.isNone then { fm with date := some (.dd now) } else fm

/-- Record the requesting client in `extra["client_id"]` when the request
was bearer-authenticated. -/
def fillClient (fm : FrontMatter) (bearerClient : Option String) : FrontMatter :=
  match bearerClient with
  | some c => { fm with extra := some (updAssoc (fm.extra.getD []) "client_id" [JVal.js c]) }
  | none => fm

/-- `"extra" in fm and k in fm["extra"]`. -/
def hasExtraKey (fm : FrontMatter) (k : String) : Bool :=
  match fm.extra with
  | none => false
  | some ex => (lookupA ex k).isSome

/-- The category/slug inference chain of `micropub_create`: `title` ⇒
`articles` (slugified title when no explicit slug); else `in_reply_to` in
extras ⇒ `replies`; else `like_of` ⇒ `likes`; else `photo` with a blank
body ⇒ `photos`; else `notes`.  The slug hint rides along unchanged. -/
def deriveCatSlug (fm : FrontMatter) (content_text : String) (mpSlug : Option String) :
    Except DErr (String × Option String) :=
  match fm.title with
  | some t =>
    if slugEmpty mpSlug then
      match t with
      | .js ts => .ok ("articles", some (slugifyStr ts))
      | .jo _ => .error DErr.uncaught
    else .ok ("articles", mpSlug)
  | none =>
    if hasExtraKey fm "in_reply_to" then .ok ("replies", mpSlug)
    else if hasExtraKey fm "like_of" then .ok ("likes", mpSlug)
    else if hasExtraKey fm "photo" ∧ (pyStrip content_text).length = 0 then
      .ok ("photos", mpSlug)
    else .ok ("notes", mpSlug)

/-- `if not slug: slug = fm["date"].strftime("%Y-%m-%d-%H-%M-%S"); fm["slug"] = slug`. -/
def finalSlug (fm : FrontMatter) (slug : Option String) :
    Except DErr (FrontMatter × String) :=
  if slugEmpty slug then
    match fm.date with
    | some (.dd d) => .ok ({ fm with slug := some (strftimeYmdHMS d) }, strftimeYmdHMS d)
    | _ => .error DErr.uncaught
  else .ok (fm, slug.getD "")

/-- `micropub_create` (src/sellout.py lines 659–689), up to the point
where the post is written: returns the relative path `category + "/" +
slug` and the document written there.  `mpSlug` is `data.get("mp-slug")`,
`bearerClient` the `client_id` of the bearer token when present, `now` is
`datetime.now(timezone.utc).replace(microsecond=0)`. -/
def micropub_create (data : MfObj) (mpSlug : Option String)
    (bearerClient : Option String) (now : PyDateTime) :
    Except DErr (String × Post) :=
  match json2post data with
  | .error e => .error e
  | .ok (fm, content_text) =>
    let fm := fillClient (fillDate fm now) bearerClient
    match deriveCatSlug fm content_text mpSlug with
    | .error e => .error e
    | .ok (category, slug) =>
      match finalSlug fm slug with
      | .error e => .error e
      | .ok (fm2, slug2) => .ok (category ++ "/" ++ slug2, (fm2, content_text))

/-- The `delete` member of a Micropub update request: a list of names, a
mapping of values, or some other JSON shape (then both `isinstance` checks
fail and the delete step is skipped). -/
inductive DeleteArg where
  | byNames (names : List String)
  | byVals (kvs : List (String × DelVal))
  | other
  deriving Repr

/-- The mutation members of a Micropub update request body. -/
structure UpdateData where
  replaceProps : Option MfProps := none
  addProps : Option MfProps := none
  deleteArg : Option DeleteArg := none

/-- `micropub_update` (src/sellout.py lines 749–774), the pure mutation
pipeline between `get_post` and `put_post`: apply `replace`, then `add`,
then `delete`, then stamp `updated` with the current UTC time (`now`,
already truncated to whole seconds by `.replace(microsecond=0)`). -/
def micropub_update (post : Post) (data : UpdateData) (now : PyDateTime) :
    Except DErr Post :=
  match (match data.replaceProps with
         | some ps => json2post_inner post ps false
         | none => .ok post) with
  | .error e => .error e
  | .ok post1 =>
    match (match data.addProps with
           | some ps => json2post_inner post1 ps true
           | none => .ok post1) with
    | .error e => .error e
    | .ok post2 =>
      match (match data.deleteArg with
             | some (DeleteArg.byNames ns) => Except.ok (delete_props post2 ns)
             | some (DeleteArg.byVals kvs) => delete_vals post2 kvs
             | _ => Except.ok post2) with
      | .error e => .error e
      | .ok post3 => .ok ({ post3.1 with updated := some (.dd now) }, post3.2)

/-! ## Theorems -/

theorem storeWf_lookup (s : CodeStore) (k : String) (r : CodeRecord)
    (hwf : storeWf s = true) (h : lookupA s k = some r) : r.token = k := by
  induction s with
  | nil => simp [lookupA] at h
  | cons hd t ih =>
    obtain ⟨k0, r0⟩ := hd
    simp only [storeWf, List.all_cons, Bool.and_eq_true, decide_eq_true_eq] at hwf
    by_cases hk : k0 = k
    · subst hk
      have hr : r0 = r := by simpa [lookupA] using h
      subst hr
      exact hwf.1
    · simp only [lookupA, if_neg hk] at h
      exact ih hwf.2 h

/-- Unfolding lemma for `redeem_auth_code` once the request shape is known
to be well-formed. -/
theorem redeem_auth_code_eq (store : CodeStore) (now : PyDateTime) (host : String)
    (form : TokenForm) (code cid ru : String)
    (hgrant : form.grant_type = some "authorization_code")
    (hcode : form.code = some code) (hcid : form.client_id = some cid)
    (hred : form.redirect_uri = some ru) :
    redeem_auth_code store now host form =
      match lookupA store ("C-" ++ code) with
      | none => .error .invalidGrant
      | some data =>
        match parseIso data.time with
        | none => .error .uncaught
        | some t =>
          match pySub now t with
          | none => .error .uncaught
          | some diff =>
            if diff > 300 ∨ cid ≠ data.client_id ∨ ru ≠ data.redirect_uri
                ∨ data.used = true ∨ data.host ≠ host then
              .error .invalidGrant
            else
              match pkceCheck data form.code_verifier with
              | .error e => .error e
              | .ok _ => redeemOk store data := by
  unfold redeem_auth_code
  rw [hgrant, hcode, hcid, hred, if_neg (by simp)]

/-- C1: a code redemption can succeed only while the stored record has
`used = false`, is at most 5 minutes old, and matches the request's
`client_id`, `redirect_uri` and serving host; on success the record is
persisted with `used = true`, so redeeming a second time with identical
parameters fails with `invalid_grant`. -/
theorem redeem_auth_code_single_use
    (store : CodeStore) (now : PyDateTime) (host code : String) (form : TokenForm)
    (data : CodeRecord) (store' : CodeStore) (rec : CodeRecord)
    (hwf : storeWf store = true)
    (hcode : form.code = some code)
    (hdata : lookupA store ("C-" ++ code) = some data)
    (hok : redeem_auth_code store now host form = .ok (store', rec)) :
    data.used = false ∧
    (∃ t diff, parseIso data.time = some t ∧ pySub now t = some diff ∧ diff ≤ 300) ∧
    form.client_id = some data.client_id ∧
    form.redirect_uri = some data.redirect_uri ∧
    data.host = host ∧
    rec = { data with used := true } ∧
    store' = updAssoc store ("C-" ++ code) rec ∧
    redeem_auth_code store' now host form = .error .invalidGrant := by
  have htok : data.token = "C-" ++ code := storeWf_lookup store _ data hwf hdata
  rcases hgrant : form.grant_type with _ | g
  · rw [redeem_auth_code] at hok
    rw [hgrant] at hok
    simp at hok
  by_cases hg : g = "authorization_code"
  swap
  · rw [redeem_auth_code, hgrant, if_pos (by simp [hg])] at hok
    simp at hok
  subst hg
  rcases hcid : form.client_id with _ | client_id
  · rw [redeem_auth_code, hgrant, if_neg (by simp), hcode, hcid] at hok
    simp at hok
  rcases hred : form.redirect_uri with _ | redirect_uri
  · rw [redeem_auth_code, hgrant, if_neg (by simp), hcode, hcid, hred] at hok
    simp at hok
  rw [redeem_auth_code_eq store now host form code client_id redirect_uri hgrant hcode hcid hred]
    at hok
  simp only [hdata] at hok
  rcases ht : parseIso data.time with _ | t
  · simp only [ht] at hok
    exact absurd hok (by simp)
  simp only [ht] at hok
  rcases hdiff : pySub now t with _ | diff
  · simp only [hdiff] at hok
    exact absurd hok (by simp)
  simp only [hdiff] at hok
  by_cases hbig : diff > 300 ∨ client_id ≠ data.client_id ∨ redirect_uri ≠ data.redirect_uri
      ∨ data.used = true ∨ data.host ≠ host
  · rw [if_pos hbig] at hok; simp at hok
  rw [if_neg hbig] at hok
  push_neg at hbig
  obtain ⟨h300, hcid', hred', hused, hhost⟩ := hbig
  rcases hpk : pkceCheck data form.code_verifier with e | u
  · simp only [hpk] at hok
    exact absurd hok (by simp)
  simp only [hpk] at hok
  rw [redeemOk] at hok
  simp only [Except.ok.injEq, Prod.mk.injEq] at hok
  obtain ⟨hstore', hrec⟩ := hok
  have hused' : data.used = false := by
    cases hu : data.used
    · rfl
    · exact absurd hu hused
  refine ⟨hused', ⟨t, diff, rfl, hdiff, h300⟩, by rw [hcid'], by rw [hred'],
    hhost, hrec.symm, by rw [← hstore', ← hrec, htok], ?_⟩
  -- second redemption with identical parameters fails: the stored record
  -- now has `used = true`
  rw [redeem_auth_code_eq store' now host form code client_id redirect_uri hgrant hcode hcid hred]
  have hl : lookupA store' ("C-" ++ code) = some { data with used := true } := by
    rw [← hstore', htok]
    exact lookupA_updAssoc_self store ("C-" ++ code) _
  simp only [hl, ht, hdiff]
  rw [if_pos (by simp)]

/-- Witness store, record and request for the redemption theorems. -/
def w1Rec : CodeRecord :=
  { token := "C-abc", time := "2024-01-02T03:00:05", client_id := "https://client.example/",
    redirect_uri := "https://client.example/cb", state := "st", host := "me.example" }

def w1Store : CodeStore := [("C-abc", w1Rec)]

def w1Now : PyDateTime := ⟨2024, 1, 2, 3, 4, 5, none⟩

def w1Form : TokenForm :=
  { grant_type := some "authorization_code", code := some "abc",
    client_id := some "https://client.example/",
    redirect_uri := some "https://client.example/cb" }

/-- Witness for C1: a concrete redemption that succeeds, instantiating
`redeem_auth_code_single_use`. -/
theorem redeem_auth_code_single_use_witness :
    w1Rec.used = false ∧
    (∃ t diff, parseIso w1Rec.time = some t ∧ pySub w1Now t = some diff ∧ diff ≤ 300) ∧
    w1Form.client_id = some w1Rec.client_id ∧
    w1Form.redirect_uri = some w1Rec.redirect_uri ∧
    w1Rec.host = "me.example" ∧
    { w1Rec with used := true } = { w1Rec with used := true } ∧
    updAssoc w1Store ("C-" ++ "abc") { w1Rec with used := true }
      = updAssoc w1Store ("C-" ++ "abc") { w1Rec with used := true } ∧
    redeem_auth_code (updAssoc w1Store ("C-" ++ "abc") { w1Rec with used := true })
      w1Now "me.example" w1Form = .error .invalidGrant := by
  have h := redeem_auth_code_single_use w1Store w1Now "me.example" "abc" w1Form
    w1Rec (updAssoc w1Store ("C-" ++ "abc") { w1Rec with used := true })
    { w1Rec with used := true }
    (by decide) (by decide) (by decide) (by rfl)
  exact ⟨h.1, h.2.1, h.2.2.1, h.2.2.2.1, h.2.2.2.2.1, rfl, rfl, h.2.2.2.2.2.2.2⟩

/-- C2: when the stored record's `code_challenge_method` is `"S256"` and all
non-PKCE checks pass, redemption requires a `code_verifier`; with one
supplied it succeeds exactly when the verifier's SHA-256 digest equals the
stored challenge decoded after re-padding (`challenge + "=="`), and fails
with `invalid_grant` on a non-matching digest. -/
theorem redeem_auth_code_pkce
    (store : CodeStore) (now : PyDateTime) (host code chal : String)
    (form : TokenForm) (data : CodeRecord) (digest : List Nat)
    (t : PyDateTime) (diff : Int)
    (hwf : storeWf store = true)
    (hgrant : form.grant_type = some "authorization_code")
    (hcode : form.code = some code)
    (hcid : form.client_id = some data.client_id)
    (hred : form.redirect_uri = some data.redirect_uri)
    (hdata : lookupA store ("C-" ++ code) = some data)
    (ht : parseIso data.time = some t)
    (hdiff : pySub now t = some diff)
    (h300 : diff ≤ 300)
    (hused : data.used = false)
    (hhost : data.host = host)
    (hmeth : data.code_challenge_method = some "S256")
    (hchal : data.code_challenge = some chal)
    (hdec : urlsafe_b64decode (chal ++ "==") = some digest) :
    (∀ v, form.code_verifier = some v → asciiOnly v = true →
      (sha256Bytes (strBytes v) = digest →
        redeem_auth_code store now host form
          = .ok (updAssoc store ("C-" ++ code) { data with used := true },
                 { data with used := true })) ∧
      (sha256Bytes (strBytes v) ≠ digest →
        redeem_auth_code store now host form = .error .invalidGrant)) ∧
    (form.code_verifier = none →
      redeem_auth_code store now host form = .error .invalidRequest) := by
  have htok : data.token = "C-" ++ code := storeWf_lookup store _ data hwf hdata
  rw [redeem_auth_code_eq store now host form code data.client_id data.redirect_uri
    hgrant hcode hcid hred]
  simp only [hdata, ht, hdiff]
  rw [if_neg (by simp [hused, hhost]; omega)]
  constructor
  · intro v hv hascii
    have hpk : pkceCheck data form.code_verifier
        = (if sha256Bytes (strBytes v) ≠ digest then Except.error AuthErr.invalidGrant
           else Except.ok ()) := by
      rw [pkceCheck.eq_def, if_pos hmeth, hv]
      simp only [hchal]
      rw [if_neg (by simp [hascii])]
      simp only [hdec]
    constructor
    · intro hsha
      rw [hpk, if_neg (by simp [hsha])]
      simp only [redeemOk, htok]
    · intro hsha
      rw [hpk, if_pos hsha]
  · intro hv
    have hpk : pkceCheck data form.code_verifier = Except.error AuthErr.invalidRequest := by
      rw [pkceCheck.eq_def, if_pos hmeth, hv]
    rw [hpk]

/-- Witness fixtures for the PKCE theorems: a record bound to an `S256`
challenge of 43 `A`s, which decodes (after re-padding) to 32 zero bytes. -/
def w2Chal : String := "AAAAAAAAAAAAAAAAAAAAAAAAAAAAAAAAAAAAAAAAAAA"

def w2Rec : CodeRecord :=
  { token := "C-abc", time := "2024-01-02T03:00:05", client_id := "https://client.example/",
    redirect_uri := "https://client.example/cb", state := "st",
    code_challenge := some w2Chal, code_challenge_method := some "S256",
    host := "me.example" }

def w2Store : CodeStore := [("C-abc", w2Rec)]

/-- Witness for C2, instantiating `redeem_auth_code_pkce` at the concrete
store `w2Store`. -/
theorem redeem_auth_code_pkce_witness :
    (∀ v, (w1Form : TokenForm).code_verifier = some v → asciiOnly v = true →
      (sha256Bytes (strBytes v) = List.replicate 32 0 →
        redeem_auth_code w2Store w1Now "me.example" w1Form
          = .ok (updAssoc w2Store ("C-" ++ "abc") { w2Rec with used := true },
                 { w2Rec with used := true })) ∧
      (sha256Bytes (strBytes v) ≠ List.replicate 32 0 →
        redeem_auth_code w2Store w1Now "me.example" w1Form = .error .invalidGrant)) ∧
    ((w1Form : TokenForm).code_verifier = none →
      redeem_auth_code w2Store w1Now "me.example" w1Form = .error .invalidRequest) :=
  redeem_auth_code_pkce w2Store w1Now "me.example" "abc" w2Chal w1Form w2Rec
    (List.replicate 32 0) ⟨2024, 1, 2, 3, 0, 5, none⟩ 240
    (by decide) (by decide) (by decide) (by decide) (by decide) (by decide)
    (by decide) (by decide) (by decide) (by decide) (by decide) (by decide)
    (by decide) (by decide)

/-- The form of a redemption request that supplies no `code_verifier`. -/
def w3Form : TokenForm :=
  { grant_type := some "authorization_code", code := some "abc",
    client_id := some "https://client.example/",
    redirect_uri := some "https://client.example/cb" }

/-- C3 counterexample: a redemption request whose stored record is present,
unexpired, matching and unused, with `code_challenge_method = "S256"` but no
`code_verifier` in the form — this PKCE failure branch reports
`invalid_request`, not the `invalid_grant` the claim asserts for every
failing branch. -/
theorem redeem_missing_verifier_not_invalid_grant :
    redeem_auth_code w2Store w1Now "me.example" w3Form = .error .invalidRequest ∧
    AuthErr.invalidRequest ≠ AuthErr.invalidGrant :=
  ⟨rfl, by decide⟩

/-- C3 (amended): for a shape-complete redemption request that does not hit
an uncaught-exception condition, every failure reports `invalid_grant`,
except the single branch where the stored record passes the preliminary
checks, its method is `S256`, and no `code_verifier` was supplied — that
branch reports `invalid_request`. -/
theorem redeem_failure_modes
    (store : CodeStore) (now : PyDateTime) (host : String) (form : TokenForm)
    (e : AuthErr)
    (hgrant : form.grant_type = some "authorization_code")
    (hc : form.code.isSome) (hci : form.client_id.isSome) (hr : form.redirect_uri.isSome)
    (hnu : redeem_auth_code store now host form ≠ .error .uncaught)
    (hfail : redeem_auth_code store now host form = .error e) :
    e = .invalidGrant ∨
      (e = .invalidRequest ∧ ∃ code data, form.code = some code ∧
        lookupA store ("C-" ++ code) = some data ∧
        data.code_challenge_method = some "S256" ∧ form.code_verifier = none) := by
  rw [Option.isSome_iff_exists] at hc hci hr
  obtain ⟨code, hcode⟩ := hc
  obtain ⟨cid, hcid⟩ := hci
  obtain ⟨ru, hred⟩ := hr
  rw [redeem_auth_code_eq store now host form code cid ru hgrant hcode hcid hred]
    at hfail hnu
  rcases hdata : lookupA store ("C-" ++ code) with _ | data
  · simp only [hdata] at hfail
    left
    exact (Except.error.inj hfail).symm
  simp only [hdata] at hfail hnu
  rcases ht : parseIso data.time with _ | t
  · simp only [ht] at hfail hnu
    exact absurd rfl hnu
  simp only [ht] at hfail hnu
  rcases hdiff : pySub now t with _ | diff
  · simp only [hdiff] at hfail hnu
    exact absurd rfl hnu
  simp only [hdiff] at hfail hnu
  by_cases hbig : diff > 300 ∨ cid ≠ data.client_id ∨ ru ≠ data.redirect_uri
      ∨ data.used = true ∨ data.host ≠ host
  · rw [if_pos hbig] at hfail
    left
    exact (Except.error.inj hfail).symm
  rw [if_neg hbig] at hfail hnu
  by_cases hmeth : data.code_challenge_method = some "S256"
  · rcases hv : form.code_verifier with _ | v
    · have hpk : pkceCheck data form.code_verifier = Except.error AuthErr.invalidRequest := by
        rw [pkceCheck.eq_def, if_pos hmeth, hv]
      simp only [hpk] at hfail
      right
      exact ⟨(Except.error.inj hfail).symm, code, data, hcode, hdata, hmeth, rfl⟩
    · rcases hchal : data.code_challenge with _ | chal
      · have hpk : pkceCheck data form.code_verifier = Except.error AuthErr.uncaught := by
          rw [pkceCheck.eq_def, if_pos hmeth, hv]
          simp only [hchal]
        simp only [hpk] at hfail hnu
        exact absurd rfl hnu
      by_cases hascii : asciiOnly v
      · rcases hdec : urlsafe_b64decode (chal ++ "==") with _ | digest
        · have hpk : pkceCheck data form.code_verifier = Except.error AuthErr.uncaught := by
            rw [pkceCheck.eq_def, if_pos hmeth, hv]
            simp only [hchal]
            rw [if_neg (by simp [hascii])]
            simp only [hdec]
          simp only [hpk] at hfail hnu
          exact absurd rfl hnu
        have hpk : pkceCheck data form.code_verifier
            = (if sha256Bytes (strBytes v) ≠ digest then Except.error AuthErr.invalidGrant
               else Except.ok ()) := by
          rw [pkceCheck.eq_def, if_pos hmeth, hv]
          simp only [hchal]
          rw [if_neg (by simp [hascii])]
          simp only [hdec]
        by_cases hsha : sha256Bytes (strBytes v) = digest
        · rw [hpk, if_neg (by simp [hsha])] at hfail
          rw [redeemOk] at hfail
          simp at hfail
        · rw [hpk, if_pos hsha] at hfail
          simp only [] at hfail
          left
          exact (Except.error.inj hfail).symm
      · have hpk : pkceCheck data form.code_verifier = Except.error AuthErr.uncaught := by
          rw [pkceCheck.eq_def, if_pos hmeth, hv]
          simp only [hchal]
          rw [if_pos (by simp [hascii])]
        simp only [hpk] at hfail hnu
        exact absurd rfl hnu
  · have hpk : pkceCheck data form.code_verifier = Except.ok () := by
      rw [pkceCheck.eq_def, if_neg hmeth]
    simp [hpk, redeemOk] at hfail

/-- A store whose only record is already used. -/
def w4Rec : CodeRecord := { w1Rec with used := true }

def w4Store : CodeStore := [("C-abc", w4Rec)]

/-- Witness for the amended C3: a request for an already-used code fails
with `invalid_grant`, via `redeem_failure_modes`. -/
theorem redeem_failure_modes_witness :
    AuthErr.invalidGrant = AuthErr.invalidGrant ∨
      (AuthErr.invalidGrant = AuthErr.invalidRequest ∧ ∃ code data,
        (w1Form : TokenForm).code = some code ∧
        lookupA w4Store ("C-" ++ code) = some data ∧
        data.code_challenge_method = some "S256" ∧
        (w1Form : TokenForm).code_verifier = none) := by
  have hEval : redeem_auth_code w4Store w1Now "me.example" w1Form
      = .error .invalidGrant := rfl
  exact redeem_failure_modes w4Store w1Now "me.example" w1Form .invalidGrant
    (by decide) (by decide) (by decide) (by decide)
    (by rw [hEval]; simp) hEval

theorem updAssoc_updAssoc {α : Type} (l : List (String × α)) (k : String) (v w : α) :
    updAssoc (updAssoc l k v) k w = updAssoc l k w := by
  induction l with
  | nil => simp [updAssoc]
  | cons hd t ih =>
    obtain ⟨k0, v0⟩ := hd
    by_cases hk : k0 = k <;> simp [updAssoc, hk, ih]

/-- Bearer-token records are stored under their own `token` key. -/
def tokenStoreWf (s : TokenStore) : Bool :=
  (s : List (String × TokenRecord)).all (fun kr => kr.2.token = kr.1)

theorem tokenStoreWf_lookup (s : TokenStore) (k : String) (r : TokenRecord)
    (hwf : tokenStoreWf s = true) (h : lookupA s k = some r) : r.token = k := by
  induction s with
  | nil => simp [lookupA] at h
  | cons hd t ih =>
    obtain ⟨k0, r0⟩ := hd
    simp only [tokenStoreWf, List.all_cons, Bool.and_eq_true, decide_eq_true_eq] at hwf
    by_cases hk : k0 = k
    · subst hk
      have hr : r0 = r := by simpa [lookupA] using h
      subst hr
      exact hwf.1
    · simp only [lookupA, if_neg hk] at h
      exact ih hwf.2 h

/-- C9: token revocation persists `revoked = true` when the token exists
under the requesting host, is a store no-op otherwise (absent token or
host mismatch), answers `200 {}` in all these cases except that a
first-party session caller gets the error page when the token is absent;
it never deletes a record and is idempotent. -/
theorem revoke_token_spec (store : TokenStore) (tok host : String) (viaCookie : Bool)
    (data : TokenRecord) (hwf : tokenStoreWf store = true) :
    (lookupA store ("B-" ++ tok) = some data → data.host = host →
      revoke_token store (some tok) host viaCookie
        = (updAssoc store ("B-" ++ tok) { data with revoked := true },
           RevokeResp.okEmpty)) ∧
    (lookupA store ("B-" ++ tok) = some data → data.host ≠ host →
      revoke_token store (some tok) host viaCookie = (store, RevokeResp.okEmpty)) ∧
    (lookupA store ("B-" ++ tok) = none →
      revoke_token store (some tok) host viaCookie
        = (store, if viaCookie then RevokeResp.errPage else RevokeResp.okEmpty)) ∧
    ((revoke_token store (some tok) host viaCookie).1.map Prod.fst
       = store.map Prod.fst) ∧
    ((revoke_token ((revoke_token store (some tok) host viaCookie).1)
        (some tok) host viaCookie).1
       = (revoke_token store (some tok) host viaCookie).1) := by
  refine ⟨?_, ?_, ?_, ?_, ?_⟩
  · intro hf hh
    have htok : data.token = "B-" ++ tok := tokenStoreWf_lookup store _ data hwf hf
    rw [revoke_token]
    simp only [hf]
    rw [if_pos hh, htok]
  · intro hf hh
    rw [revoke_token]
    simp only [hf]
    rw [if_neg hh]
  · intro hf
    rw [revoke_token]
    simp only [hf]
  · rcases hf : lookupA store ("B-" ++ tok) with _ | d
    · rw [revoke_token]
      simp only [hf]
    · have htok : d.token = "B-" ++ tok := tokenStoreWf_lookup store _ d hwf hf
      rw [revoke_token]
      simp only [hf]
      by_cases hh : d.host = host
      · rw [if_pos hh]
        exact keysOf_updAssoc_mem store d.token _ (by rw [htok, hf]; simp)
      · rw [if_neg hh]
  · rcases hf : lookupA store ("B-" ++ tok) with _ | d
    · have h1 : revoke_token store (some tok) host viaCookie
          = (store, if viaCookie then RevokeResp.errPage else RevokeResp.okEmpty) := by
        rw [revoke_token]
        simp only [hf]
      rw [h1]
      show (revoke_token store (some tok) host viaCookie).1 = store
      rw [revoke_token]
      simp [hf]
    · have htok : d.token = "B-" ++ tok := tokenStoreWf_lookup store _ d hwf hf
      by_cases hh : d.host = host
      · have h1 : revoke_token store (some tok) host viaCookie
            = (updAssoc store ("B-" ++ tok) { d with revoked := true },
               RevokeResp.okEmpty) := by
          rw [revoke_token]
          simp only [hf]
          rw [if_pos hh, htok]
        rw [h1]
        show (revoke_token (updAssoc store ("B-" ++ tok) { d with revoked := true })
            (some tok) host viaCookie).1
          = updAssoc store ("B-" ++ tok) { d with revoked := true }
        rw [revoke_token]
        simp only [lookupA_updAssoc_self]
        rw [if_pos (show ({ d with revoked := true } : TokenRecord).host = host from hh)]
        rw [htok, updAssoc_updAssoc]
      · have h1 : revoke_token store (some tok) host viaCookie = (store, RevokeResp.okEmpty) := by
          rw [revoke_token]
          simp only [hf]
          rw [if_neg hh]
        rw [h1]
        show (revoke_token store (some tok) host viaCookie).1 = store
        rw [revoke_token]
        simp only [hf]
        rw [if_neg hh]

/-- Witness fixtures for revocation. -/
def w5Rec : TokenRecord :=
  { token := "B-tok1", time := "2024-01-02T03:00:05", code_used := "C-abc",
    client_id := "https://client.example/", scopes := ["create"], host := "me.example" }

def w5Store : TokenStore := [("B-tok1", w5Rec)]

/-- Witness for C9, instantiating `revoke_token_spec` at a concrete store. -/
theorem revoke_token_spec_witness :
    (lookupA w5Store ("B-" ++ "tok1") = some w5Rec → w5Rec.host = "me.example" →
      revoke_token w5Store (some "tok1") "me.example" false
        = (updAssoc w5Store ("B-" ++ "tok1") { w5Rec with revoked := true },
           RevokeResp.okEmpty)) ∧
    (lookupA w5Store ("B-" ++ "tok1") = some w5Rec → w5Rec.host ≠ "me.example" →
      revoke_token w5Store (some "tok1") "me.example" false = (w5Store, RevokeResp.okEmpty)) ∧
    (lookupA w5Store ("B-" ++ "tok1") = none →
      revoke_token w5Store (some "tok1") "me.example" false
        = (w5Store, if false then RevokeResp.errPage else RevokeResp.okEmpty)) ∧
    ((revoke_token w5Store (some "tok1") "me.example" false).1.map Prod.fst
       = w5Store.map Prod.fst) ∧
    ((revoke_token ((revoke_token w5Store (some "tok1") "me.example" false).1)
        (some "tok1") "me.example" false).1
       = (revoke_token w5Store (some "tok1") "me.example" false).1) :=
  revoke_token_spec w5Store "tok1" "me.example" false w5Rec (by decide)

/-- C10: every successful `micropub_update` stamps the stored document's
`updated` front-matter field with the current UTC time (truncated to whole
seconds before being passed in, per `.replace(microsecond=0)`), regardless
of the request's replace/add/delete members — overriding any `updated`
value they may have set. -/
theorem micropub_update_stamps_updated (post : Post) (data : UpdateData)
    (now : PyDateTime) (post' : Post)
    (h : micropub_update post data now = .ok post') :
    post'.1.updated = some (.dd now) := by
  unfold micropub_update at h
  split at h
  · exact absurd h (by simp)
  split at h
  · exact absurd h (by simp)
  split at h
  · exact absurd h (by simp)
  simp only [Except.ok.injEq] at h
  rw [← h]

/-- Witness for C10: a concrete update whose `replace` member tries to set
`updated` to an old date; the stored document still carries `now`. -/
theorem micropub_update_stamps_updated_witness :
    ((({ updated := some (DateVal.dd ⟨2024, 1, 2, 3, 4, 5, some 0⟩) } : FrontMatter),
        "body") : Post).1.updated
      = some (.dd ⟨2024, 1, 2, 3, 4, 5, some 0⟩) :=
  micropub_update_stamps_updated (({} : FrontMatter), "body")
    { replaceProps := some [("updated", some [JVal.js "2001-01-01T00:00:00"])] }
    ⟨2024, 1, 2, 3, 4, 5, some 0⟩
    ({ updated := some (.dd ⟨2024, 1, 2, 3, 4, 5, some 0⟩) }, "body") rfl

/-! ### `delete_props` (C5) -/

theorem delete_props_cons (post : Post) (k : String) (t : List String) :
    delete_props post (k :: t) = delete_props (dpStep post k) t := rfl

theorem dpStep_date (post : Post) (k : String) : (dpStep post k).1.date = post.1.date := by
  obtain ⟨fm, ct⟩ := post
  rcases htx : fm.taxonomies with _ | tx <;>
  rcases hex : fm.extra with _ | ex <;>
    (rw [dpStep.eq_def]; split_ifs <;> simp_all)

theorem dpStep_body (post : Post) (k : String) :
    (dpStep post k).2 = if k = "content" then "" else post.2 := by
  obtain ⟨fm, ct⟩ := post
  rcases htx : fm.taxonomies with _ | tx <;>
  rcases hex : fm.extra with _ | ex <;>
    (rw [dpStep.eq_def]; split_ifs <;> simp_all)

theorem dpStep_title (post : Post) (k : String) :
    (dpStep post k).1.title = if k = "name" then none else post.1.title := by
  obtain ⟨fm, ct⟩ := post
  rcases htx : fm.taxonomies with _ | tx <;>
  rcases hex : fm.extra with _ | ex <;>
    (rw [dpStep.eq_def]; split_ifs <;> simp_all)

theorem dpStep_updated (post : Post) (k : String) :
    (dpStep post k).1.updated = if k = "updated" then none else post.1.updated := by
  obtain ⟨fm, ct⟩ := post
  rcases htx : fm.taxonomies with _ | tx <;>
  rcases hex : fm.extra with _ | ex <;>
    (rw [dpStep.eq_def]; split_ifs <;> simp_all)

theorem dpStep_tag_mono (post : Post) (k : String)
    (h : ∀ tx, post.1.taxonomies = some tx → lookupA tx "tag" = none) :
    ∀ tx, (dpStep post k).1.taxonomies = some tx → lookupA tx "tag" = none := by
  obtain ⟨fm, ct⟩ := post
  intro tx' htx'
  rcases htx : fm.taxonomies with _ | tx <;>
  rcases hex : fm.extra with _ | ex <;>
    (rw [dpStep.eq_def] at htx'; split_ifs at htx') <;>
    first
      | simp_all
      | (exact h tx' htx')
      | (split at htx' <;> simp_all)
  all_goals
    (rw [← htx'.2]
     exact lookupA_eraseA_self tx "tag")

theorem dpStep_category_tag (post : Post) :
    ∀ tx, (dpStep post "category").1.taxonomies = some tx → lookupA tx "tag" = none := by
  obtain ⟨fm, ct⟩ := post
  intro tx' htx'
  rcases htx : fm.taxonomies with _ | tx <;>
  rcases hex : fm.extra with _ | ex <;>
    (rw [dpStep.eq_def] at htx'; split_ifs at htx') <;>
    first
      | simp_all
      | (split at htx' <;> simp_all)
  all_goals
    (rw [← htx'.2]
     exact lookupA_eraseA_self tx "tag")

theorem dpStep_extra_mono (post : Post) (k k0 : String)
    (h : ∀ ex, post.1.extra = some ex → lookupA ex (replaceChar k0 '-' "_") = none) :
    ∀ ex, (dpStep post k).1.extra = some ex →
      lookupA ex (replaceChar k0 '-' "_") = none := by
  obtain ⟨fm, ct⟩ := post
  have h' : ∀ ex, fm.extra = some ex → lookupA ex (replaceChar k0 '-' "_") = none := h
  intro ex' hex'
  rcases htx : fm.taxonomies with _ | tx <;>
  rcases hex : fm.extra with _ | ex0 <;>
    (rw [dpStep.eq_def] at hex'; split_ifs at hex') <;>
    first
      | simp_all
      | (exact h' ex' hex')
      | (split at hex' <;> simp_all)
  all_goals
    (rw [← hex']
     exact lookupA_eraseA_none ex0 _ _ h')

theorem dpStep_extra_self (post : Post) (k : String)
    (hk : ¬(k = "name" ∨ k = "published" ∨ k = "updated" ∨ k = "category" ∨ k = "content")) :
    ∀ ex, (dpStep post k).1.extra = some ex →
      lookupA ex (replaceChar k '-' "_") = none := by
  obtain ⟨fm, ct⟩ := post
  push_neg at hk
  obtain ⟨h1, h2, h3, h4, h5⟩ := hk
  intro ex' hex'
  rcases hex : fm.extra with _ | ex0 <;>
    (rw [dpStep.eq_def] at hex';
     simp only [hex, if_neg h1, if_neg h2, if_neg h3, if_neg h4, if_neg h5] at hex')
  · exact absurd hex' (by simp)
  · first
      | (rw [← hex']
         exact lookupA_eraseA_self ex0 _)
      | (rw [← Option.some.inj hex']
         exact lookupA_eraseA_self ex0 _)

theorem delete_props_date (post : Post) (names : List String) :
    (delete_props post names).1.date = post.1.date := by
  induction names generalizing post with
  | nil => rfl
  | cons k t ih => rw [delete_props_cons, ih, dpStep_date]

theorem delete_props_body_frame (post : Post) (names : List String)
    (h : "content" ∉ names) : (delete_props post names).2 = post.2 := by
  induction names generalizing post with
  | nil => rfl
  | cons k t ih =>
    rw [delete_props_cons, ih _ (fun hc => h (List.mem_cons_of_mem _ hc)), dpStep_body,
      if_neg (fun hc => h (by rw [← hc]; exact List.mem_cons_self _ _))]

theorem delete_props_title_frame (post : Post) (names : List String)
    (h : "name" ∉ names) : (delete_props post names).1.title = post.1.title := by
  induction names generalizing post with
  | nil => rfl
  | cons k t ih =>
    rw [delete_props_cons, ih _ (fun hc => h (List.mem_cons_of_mem _ hc)), dpStep_title,
      if_neg (fun hc => h (by rw [← hc]; exact List.mem_cons_self _ _))]

theorem delete_props_updated_frame (post : Post) (names : List String)
    (h : "updated" ∉ names) : (delete_props post names).1.updated = post.1.updated := by
  induction names generalizing post with
  | nil => rfl
  | cons k t ih =>
    rw [delete_props_cons, ih _ (fun hc => h (List.mem_cons_of_mem _ hc)), dpStep_updated,
      if_neg (fun hc => h (by rw [← hc]; exact List.mem_cons_self _ _))]

theorem delete_props_tag_mono (post : Post) (names : List String)
    (h : ∀ tx, post.1.taxonomies = some tx → lookupA tx "tag" = none) :
    ∀ tx, (delete_props post names).1.taxonomies = some tx → lookupA tx "tag" = none := by
  induction names generalizing post with
  | nil => exact h
  | cons k t ih =>
    rw [delete_props_cons]
    exact ih _ (dpStep_tag_mono post k h)

theorem delete_props_extra_mono (post : Post) (names : List String) (k0 : String)
    (h : ∀ ex, post.1.extra = some ex → lookupA ex (replaceChar k0 '-' "_") = none) :
    ∀ ex, (delete_props post names).1.extra = some ex →
      lookupA ex (replaceChar k0 '-' "_") = none := by
  induction names generalizing post with
  | nil => exact h
  | cons k t ih =>
    rw [delete_props_cons]
    exact ih _ (dpStep_extra_mono post k k0 h)

/-- C5 (amended): `delete_props` never touches the `date` field (so asking
to remove `published` is a no-op on it), but asking to remove `content`
CLEARS the body text (`content_text = ""` in the source, contradicting the
claim's no-op); removing `name`/`updated`/`category`/extra keys clears the
corresponding field, and a body not named for deletion is unchanged. -/
theorem delete_props_spec (post : Post) (names : List String) :
    ((delete_props post names).1.date = post.1.date) ∧
    ("content" ∈ names → (delete_props post names).2 = "") ∧
    ("content" ∉ names → (delete_props post names).2 = post.2) ∧
    ("name" ∈ names → (delete_props post names).1.title = none) ∧
    ("updated" ∈ names → (delete_props post names).1.updated = none) ∧
    ("category" ∈ names → ∀ tx, (delete_props post names).1.taxonomies = some tx →
      lookupA tx "tag" = none) ∧
    (∀ k, k ∈ names →
      ¬(k = "name" ∨ k = "published" ∨ k = "updated" ∨ k = "category" ∨ k = "content") →
      ∀ ex, (delete_props post names).1.extra = some ex →
        lookupA ex (replaceChar k '-' "_") = none) := by
  induction names generalizing post with
  | nil =>
    refine ⟨rfl, by simp, fun _ => rfl, by simp, by simp, by simp, by simp⟩
  | cons k t ih =>
    refine ⟨?_, ?_, ?_, ?_, ?_, ?_, ?_⟩
    · rw [delete_props_cons, delete_props_date, dpStep_date]
    · intro hm
      rw [delete_props_cons]
      by_cases hc : "content" ∈ t
      · exact ((ih (dpStep post k)).2.1) hc
      · have hk : k = "content" := by
          rcases List.mem_cons.mp hm with h | h
          · exact h.symm
          · exact absurd h hc
        rw [delete_props_body_frame _ _ hc, dpStep_body, if_pos hk]
    · intro hm
      rw [delete_props_cons,
        delete_props_body_frame _ _ (fun hc => hm (List.mem_cons_of_mem _ hc)),
        dpStep_body, if_neg (fun hc => hm (by rw [← hc]; exact List.mem_cons_self _ _))]
    · intro hm
      rw [delete_props_cons]
      by_cases hc : "name" ∈ t
      · exact ((ih (dpStep post k)).2.2.2.1) hc
      · have hk : k = "name" := by
          rcases List.mem_cons.mp hm with h | h
          · exact h.symm
          · exact absurd h hc
        rw [delete_props_title_frame _ _ hc, dpStep_title, if_pos hk]
    · intro hm
      rw [delete_props_cons]
      by_cases hc : "updated" ∈ t
      · exact ((ih (dpStep post k)).2.2.2.2.1) hc
      · have hk : k = "updated" := by
          rcases List.mem_cons.mp hm with h | h
          · exact h.symm
          · exact absurd h hc
        rw [delete_props_updated_frame _ _ hc, dpStep_updated, if_pos hk]
    · intro hm
      rw [delete_props_cons]
      by_cases hc : "category" ∈ t
      · exact ((ih (dpStep post k)).2.2.2.2.2.1) hc
      · have hk : k = "category" := by
          rcases List.mem_cons.mp hm with h | h
          · exact h.symm
          · exact absurd h hc
        subst hk
        exact delete_props_tag_mono _ t (dpStep_category_tag post)
    · intro k0 hm hrec
      rw [delete_props_cons]
      rcases List.mem_cons.mp hm with h | h
      · subst h
        exact delete_props_extra_mono _ t k0 (dpStep_extra_self post k0 hrec)
      · exact ((ih (dpStep post k)).2.2.2.2.2.2) k0 h hrec

/-- C5 counterexample: the claim says removing `content` by name leaves
the body text unchanged, but `delete_props` clears it. -/
theorem delete_props_content_clears_body :
    (delete_props (({ title := some (.js "T"), date := some (.ds "2020-01-01") }
        : FrontMatter), "body text") ["content"]).2 = "" ∧
    "" ≠ "body text" ∧
    (delete_props (({ title := some (.js "T"), date := some (.ds "2020-01-01") }
        : FrontMatter), "body text") ["published"])
      = (({ title := some (.js "T"), date := some (.ds "2020-01-01") }
        : FrontMatter), "body text") :=
  ⟨rfl, by decide, rfl⟩

/-- A concrete document exercising every field. -/
def w6Post : Post :=
  ({ title := some (.js "T"), description := some (.js "D"),
     date := some (.ds "2020-01-01"), updated := some (.dd ⟨2020, 1, 2, 0, 0, 0, none⟩),
     taxonomies := some [("tag", [.js "x"])],
     extra := some [("my_key", [.js "v"]), ("other", [.js "w"])] }, "hello body")

/-- Witness for the amended C5 at a concrete document and name set. -/
theorem delete_props_spec_witness :
    ((delete_props (w6Post) ["published", "content", "name", "updated", "category", "my-key"]).1.date
       = (w6Post).1.date) ∧
    ("content" ∈ (["published", "content", "name", "updated", "category", "my-key"] : List String) →
      (delete_props w6Post ["published", "content", "name", "updated", "category", "my-key"]).2 = "") ∧
    ("content" ∉ (["published", "content", "name", "updated", "category", "my-key"] : List String) →
      (delete_props w6Post ["published", "content", "name", "updated", "category", "my-key"]).2 = w6Post.2) ∧
    ("name" ∈ (["published", "content", "name", "updated", "category", "my-key"] : List String) →
      (delete_props w6Post ["published", "content", "name", "updated", "category", "my-key"]).1.title = none) ∧
    ("updated" ∈ (["published", "content", "name", "updated", "category", "my-key"] : List String) →
      (delete_props w6Post ["published", "content", "name", "updated", "category", "my-key"]).1.updated = none) ∧
    ("category" ∈ (["published", "content", "name", "updated", "category", "my-key"] : List String) →
      ∀ tx, (delete_props w6Post ["published", "content", "name", "updated", "category", "my-key"]).1.taxonomies = some tx →
        lookupA tx "tag" = none) ∧
    (∀ k, k ∈ (["published", "content", "name", "updated", "category", "my-key"] : List String) →
      ¬(k = "name" ∨ k = "published" ∨ k = "updated" ∨ k = "category" ∨ k = "content") →
      ∀ ex, (delete_props w6Post ["published", "content", "name", "updated", "category", "my-key"]).1.extra = some ex →
        lookupA ex (replaceChar k '-' "_") = none) :=
  delete_props_spec w6Post ["published", "content", "name", "updated", "category", "my-key"]

/-! ### `delete_vals` (C6) -/

/-- C6: `delete_vals` removes exactly the listed values from `category`
(pruning `tag` and `taxonomies` when emptied) — but for an extra key whose
value list becomes empty, the source executes `del fm["extra"]["k"]`: it
deletes the literal key `"k"`, which does not exist, raising an uncaught
`KeyError` instead of removing the emptied key, while the claim (and the
spec's own design note flagging this line as a likely defect) requires the
emptied key itself to be removed. -/
theorem delete_vals_extra_key_bug :
    delete_vals (({ extra := some [("foo", [JVal.js "a"])] } : FrontMatter), "b")
      [("foo", DelVal.arr [JVal.js "a"])] = .error .uncaught ∧
    delete_vals (({ taxonomies := some [("tag", [JVal.js "x", JVal.js "y"])] } : FrontMatter), "b")
      [("category", DelVal.arr [JVal.js "x"])]
      = .ok (({ taxonomies := some [("tag", [JVal.js "y"])] } : FrontMatter), "b") :=
  ⟨rfl, rfl⟩

/-! ### `micropub_create` (C7) -/

/-- C7 counterexample: with both `mp-slug=foo` and a title, the claimed
first-match precedence would stop at the slug hint and leave the default
category `notes`, yielding `notes/foo`; the code still derives category
`articles` from the title, yielding `articles/foo`. -/
theorem micropub_create_slug_hint_and_title :
    (micropub_create { type := ["h-entry"], properties := [("name", some [JVal.js "T"])] }
        (some "foo") none ⟨2024, 1, 2, 3, 4, 5, some 0⟩).map Prod.fst
      = .ok "articles/foo" ∧
    "articles/foo" ≠ "notes/foo" :=
  ⟨rfl, by decide⟩

/-- C7 (amended): category derivation and slug derivation are separate.
Category, first match wins regardless of any `mp-slug` hint: `title` ⇒
`articles`, else `in-reply-to` in extras ⇒ `replies`, else `like-of` ⇒
`likes`, else `photo` with blank body ⇒ `photos`, else `notes`.  Slug:
a non-empty `mp-slug` hint wins; else a slugified string title; when the
resulting slug is still empty, the document's date formatted as the
fixed-width `YYYY-MM-DD-HH-MM-SS` timestamp, persisted in the `slug`
front-matter field. -/
theorem micropub_create_path (data : MfObj) (mpSlug bc : Option String)
    (now : PyDateTime) (fm fm2 : FrontMatter) (ct : String) (path : String) (post : Post)
    (hj : json2post data = .ok (fm, ct))
    (hfm2 : fm2 = fillClient (fillDate fm now) bc)
    (h : micropub_create data mpSlug bc now = .ok (path, post)) :
    (fm2.title.isSome = true → ∃ s, path = "articles/" ++ s) ∧
    (fm2.title = none → hasExtraKey fm2 "in_reply_to" = true →
      ∃ s, path = "replies/" ++ s) ∧
    (fm2.title = none → hasExtraKey fm2 "in_reply_to" = false →
      hasExtraKey fm2 "like_of" = true → ∃ s, path = "likes/" ++ s) ∧
    (fm2.title = none → hasExtraKey fm2 "in_reply_to" = false →
      hasExtraKey fm2 "like_of" = false → hasExtraKey fm2 "photo" = true →
      (pyStrip ct).length = 0 → ∃ s, path = "photos/" ++ s) ∧
    (fm2.title = none → hasExtraKey fm2 "in_reply_to" = false →
      hasExtraKey fm2 "like_of" = false →
      ¬(hasExtraKey fm2 "photo" = true ∧ (pyStrip ct).length = 0) →
      ∃ s, path = "notes/" ++ s) ∧
    (slugEmpty mpSlug = false →
      ∃ c, path = c ++ "/" ++ mpSlug.getD "" ∧ post.1.slug = fm2.slug) ∧
    (slugEmpty mpSlug = true → ∀ ts, fm2.title = some (JVal.js ts) → slugifyStr ts ≠ "" →
      ∃ c, path = c ++ "/" ++ slugifyStr ts ∧ post.1.slug = fm2.slug) ∧
    (slugEmpty mpSlug = true →
      (fm2.title = none ∨ ∃ ts, fm2.title = some (JVal.js ts) ∧ slugifyStr ts = "") →
      ∃ d, fm2.date = some (.dd d) ∧ (∃ c, path = c ++ "/" ++ strftimeYmdHMS d) ∧
        post.1.slug = some (strftimeYmdHMS d)) := by
  subst hfm2
  unfold micropub_create at h
  simp only [hj] at h
  rcases hd : deriveCatSlug (fillClient (fillDate fm now) bc) ct mpSlug with e | p1
  · simp only [hd] at h
    exact absurd h (by simp)
  obtain ⟨category, slug1⟩ := p1
  simp only [hd] at h
  rcases hf : finalSlug (fillClient (fillDate fm now) bc) slug1 with e | p2
  · simp only [hf] at h
    exact absurd h (by simp)
  obtain ⟨fmF, slugF⟩ := p2
  simp only [hf] at h
  simp only [Except.ok.injEq, Prod.mk.injEq] at h
  obtain ⟨hpath, hpost⟩ := h
  rcases htitle : (fillClient (fillDate fm now) bc).title with _ | t
  · -- no title: category comes from the extras chain, slug1 is the hint
    rw [deriveCatSlug.eq_def] at hd
    simp only [htitle] at hd
    have hslug1 : mpSlug = slug1 := by
      split_ifs at hd <;>
        (simp only [Except.ok.injEq, Prod.mk.injEq] at hd; exact hd.2)
    refine ⟨?_, ?_, ?_, ?_, ?_, ?_, ?_, ?_⟩
    · intro hsome
      simp at hsome
    · intro _ hirt
      rw [if_pos hirt] at hd
      simp only [Except.ok.injEq, Prod.mk.injEq] at hd
      exact ⟨slugF, by
        rw [← hpath, ← hd.1]
        exact congrArg (fun p => p ++ slugF) rfl⟩
    · intro _ hirt hlike
      rw [if_neg (by simp [hirt]), if_pos hlike] at hd
      simp only [Except.ok.injEq, Prod.mk.injEq] at hd
      exact ⟨slugF, by
        rw [← hpath, ← hd.1]
        exact congrArg (fun p => p ++ slugF) rfl⟩
    · intro _ hirt hlike hph hblank
      rw [if_neg (by simp [hirt]), if_neg (by simp [hlike]), if_pos ⟨hph, hblank⟩] at hd
      simp only [Except.ok.injEq, Prod.mk.injEq] at hd
      exact ⟨slugF, by
        rw [← hpath, ← hd.1]
        exact congrArg (fun p => p ++ slugF) rfl⟩
    · intro _ hirt hlike hnp
      rw [if_neg (by simp [hirt]), if_neg (by simp [hlike]), if_neg hnp] at hd
      simp only [Except.ok.injEq, Prod.mk.injEq] at hd
      exact ⟨slugF, by
        rw [← hpath, ← hd.1]
        exact congrArg (fun p => p ++ slugF) rfl⟩
    · intro hne
      rw [finalSlug.eq_def, ← hslug1] at hf
      rw [if_neg (by simp [hne])] at hf
      simp only [Except.ok.injEq, Prod.mk.injEq] at hf
      refine ⟨category, by rw [← hpath, hf.2], ?_⟩
      rw [← hpost]
      show fmF.slug = _
      rw [← hf.1]
    · intro _ ts hts
      exact absurd hts (by simp)
    · intro hse _
      rw [finalSlug.eq_def, ← hslug1] at hf
      rw [if_pos (by simp [hse])] at hf
      rcases hdate : (fillClient (fillDate fm now) bc).date with _ | dv
      · rw [hdate] at hf
        exact absurd hf (by simp)
      rcases dv with ds | d
      · rw [hdate] at hf
        exact absurd hf (by simp)
      · rw [hdate] at hf
        simp only [Except.ok.injEq, Prod.mk.injEq] at hf
        refine ⟨d, rfl, ⟨category, by rw [← hpath, hf.2]⟩, ?_⟩
        rw [← hpost]
        show fmF.slug = _
        rw [← hf.1]
  · -- a title is present: category is `articles`
    rw [deriveCatSlug.eq_def] at hd
    simp only [htitle] at hd
    have hcat : category = "articles" := by
      by_cases hse : slugEmpty mpSlug = true
      · rw [if_pos hse] at hd
        rcases t with ts | kvs
        · simp only [Except.ok.injEq, Prod.mk.injEq] at hd
          exact hd.1.symm
        · exact absurd hd (by simp)
      · rw [if_neg hse] at hd
        simp only [Except.ok.injEq, Prod.mk.injEq] at hd
        exact hd.1.symm
    refine ⟨?_, ?_, ?_, ?_, ?_, ?_, ?_, ?_⟩
    · intro _
      exact ⟨slugF, by
        rw [← hpath, hcat]
        exact congrArg (fun p => p ++ slugF) rfl⟩
    · intro hnone
      exact absurd hnone (by simp)
    · intro hnone
      exact absurd hnone (by simp)
    · intro hnone
      exact absurd hnone (by simp)
    · intro hnone
      exact absurd hnone (by simp)
    · intro hne
      rw [if_neg (by simp [hne])] at hd
      simp only [Except.ok.injEq, Prod.mk.injEq] at hd
      rw [finalSlug.eq_def, ← hd.2] at hf
      rw [if_neg (by simp [hne])] at hf
      simp only [Except.ok.injEq, Prod.mk.injEq] at hf
      refine ⟨category, by rw [← hpath, hf.2], ?_⟩
      rw [← hpost]
      show fmF.slug = _
      rw [← hf.1]
    · intro hse ts hts hslug
      rw [if_pos hse] at hd
      have ht : t = JVal.js ts := Option.some.inj hts
      subst ht
      simp only [Except.ok.injEq, Prod.mk.injEq] at hd
      rw [finalSlug.eq_def, ← hd.2] at hf
      rw [if_neg (by simp [slugEmpty, hslug])] at hf
      simp only [Except.ok.injEq, Prod.mk.injEq] at hf
      refine ⟨category, by rw [← hpath, ← hf.2]; try rfl, ?_⟩
      rw [← hpost]
      show fmF.slug = _
      rw [← hf.1]
    · intro hse hcases
      rcases hcases with hnone | ⟨ts, hts, hslug⟩
      · exact absurd hnone (by simp)
      rw [if_pos hse] at hd
      have ht : t = JVal.js ts := Option.some.inj hts
      subst ht
      simp only [Except.ok.injEq, Prod.mk.injEq] at hd
      rw [finalSlug.eq_def, ← hd.2] at hf
      rw [if_pos (by simp [slugEmpty, hslug])] at hf
      rcases hdate : (fillClient (fillDate fm now) bc).date with _ | dv
      · rw [hdate] at hf
        exact absurd hf (by simp)
      rcases dv with ds | d
      · rw [hdate] at hf
        exact absurd hf (by simp)
      · rw [hdate] at hf
        simp only [Except.ok.injEq, Prod.mk.injEq] at hf
        refine ⟨d, rfl, ⟨category, by rw [← hpath, hf.2]⟩, ?_⟩
        rw [← hpost]
        show fmF.slug = _
        rw [← hf.1]

/-- Witness fixtures for C7: a create request with title "Hello World"
and no `mp-slug`. -/
def w7data : MfObj :=
  { type := ["h-entry"], properties := [("name", some [JVal.js "Hello World"])] }

def w7now : PyDateTime := ⟨2024, 1, 2, 3, 4, 5, some 0⟩

def w7fm : FrontMatter := { title := some (JVal.js "Hello World") }

def w7fm2 : FrontMatter :=
  { title := some (JVal.js "Hello World"), date := some (.dd w7now) }

/-- Witness for the amended C7, instantiating `micropub_create_path` at the
"Hello World" example: the path is `articles/hello-world`. -/
theorem micropub_create_path_witness :
    (w7fm2.title.isSome = true → ∃ s, "articles/hello-world" = "articles/" ++ s) ∧
    (w7fm2.title = none → hasExtraKey w7fm2 "in_reply_to" = true →
      ∃ s, "articles/hello-world" = "replies/" ++ s) ∧
    (w7fm2.title = none → hasExtraKey w7fm2 "in_reply_to" = false →
      hasExtraKey w7fm2 "like_of" = true → ∃ s, "articles/hello-world" = "likes/" ++ s) ∧
    (w7fm2.title = none → hasExtraKey w7fm2 "in_reply_to" = false →
      hasExtraKey w7fm2 "like_of" = false → hasExtraKey w7fm2 "photo" = true →
      (pyStrip "").length = 0 → ∃ s, "articles/hello-world" = "photos/" ++ s) ∧
    (w7fm2.title = none → hasExtraKey w7fm2 "in_reply_to" = false →
      hasExtraKey w7fm2 "like_of" = false →
      ¬(hasExtraKey w7fm2 "photo" = true ∧ (pyStrip "").length = 0) →
      ∃ s, "articles/hello-world" = "notes/" ++ s) ∧
    (slugEmpty none = false →
      ∃ c, "articles/hello-world" = c ++ "/" ++ (none : Option String).getD "" ∧
        ((w7fm2, "") : Post).1.slug = w7fm2.slug) ∧
    (slugEmpty none = true → ∀ ts, w7fm2.title = some (JVal.js ts) → slugifyStr ts ≠ "" →
      ∃ c, "articles/hello-world" = c ++ "/" ++ slugifyStr ts ∧
        ((w7fm2, "") : Post).1.slug = w7fm2.slug) ∧
    (slugEmpty none = true →
      (w7fm2.title = none ∨ ∃ ts, w7fm2.title = some (JVal.js ts) ∧ slugifyStr ts = "") →
      ∃ d, w7fm2.date = some (.dd d) ∧
        (∃ c, "articles/hello-world" = c ++ "/" ++ strftimeYmdHMS d) ∧
        ((w7fm2, "") : Post).1.slug = some (strftimeYmdHMS d)) :=
  micropub_create_path w7data none none w7now w7fm w7fm2 "" "articles/hello-world"
    (w7fm2, "") rfl rfl rfl


/-! ### `post2json` (C8) -/

theorem stepTitle_lookup_ne (props : MfProps) (fm : FrontMatter) (k : String)
    (hk : k ≠ "name") : lookupA (stepTitle props fm) k = lookupA props k := by
  unfold stepTitle
  rcases fm.title with _ | t
  · rfl
  · exact lookupA_updAssoc_ne props "name" k _ hk

theorem stepTitle_lookup_some (props : MfProps) (fm : FrontMatter) (t : JVal)
    (ht : fm.title = some t) :
    lookupA (stepTitle props fm) "name" = some (some [t]) := by
  unfold stepTitle
  simp only [ht, lookupA_updAssoc_self]

theorem stepDescr_lookup_ne (props : MfProps) (fm : FrontMatter) (k : String)
    (hk : k ≠ "summary") : lookupA (stepDescr props fm) k = lookupA props k := by
  unfold stepDescr
  rcases fm.description with _ | d
  · rfl
  · exact lookupA_updAssoc_ne props "summary" k _ hk

theorem stepDescr_lookup_some (props : MfProps) (fm : FrontMatter) (d : JVal)
    (hd : fm.description = some d) :
    lookupA (stepDescr props fm) "summary" = some (some [d]) := by
  unfold stepDescr
  simp only [hd, lookupA_updAssoc_self]

theorem stepCategory_lookup_ne (props : MfProps) (fm : FrontMatter) (k : String)
    (hk : k ≠ "category") : lookupA (stepCategory props fm) k = lookupA props k := by
  unfold stepCategory
  rcases fm.taxonomies with _ | tx
  · rfl
  · rcases htag : lookupA tx "tag" with _ | tags
    · simp only [htag]
    · simp only [htag]
      exact lookupA_updAssoc_ne props "category" k _ hk

theorem stepCategory_lookup_some (props : MfProps) (fm : FrontMatter)
    (tx : List (String × List JVal)) (tags : List JVal)
    (htx : fm.taxonomies = some tx) (htag : lookupA tx "tag" = some tags) :
    lookupA (stepCategory props fm) "category" = some (some tags) := by
  unfold stepCategory
  simp only [htx, htag, lookupA_updAssoc_self]

theorem stepContent_lookup_ne (props : MfProps) (ct : String) (k : String)
    (hk : k ≠ "content") : lookupA (stepContent props ct) k = lookupA props k := by
  unfold stepContent
  split_ifs
  · exact lookupA_updAssoc_ne props "content" k _ hk
  · rfl

theorem stepContent_lookup_pos (props : MfProps) (ct : String)
    (h : 0 < (pyStrip ct).length) :
    lookupA (stepContent props ct) "content"
      = some (some [JVal.jo [("markdown", ct)]]) := by
  unfold stepContent
  rw [if_pos h]
  exact lookupA_updAssoc_self props "content" _

theorem stepContent_lookup_zero (props : MfProps) (ct : String)
    (h : (pyStrip ct).length = 0) :
    lookupA (stepContent props ct) "content" = lookupA props "content" := by
  unfold stepContent
  rw [if_neg (by omega)]

theorem extraFold_frame (l : List (String × List JVal)) (acc : MfProps) (k : String)
    (hk : k ∉ l.map (fun kv => replaceChar kv.1 '_' "-")) :
    lookupA (l.foldl (fun ps kv => updAssoc ps (replaceChar kv.1 '_' "-") (some kv.2)) acc) k
      = lookupA acc k := by
  induction l generalizing acc with
  | nil => rfl
  | cons a t ih =>
    simp only [List.map_cons, List.mem_cons, not_or] at hk
    rw [List.foldl_cons, ih _ hk.2,
      lookupA_updAssoc_ne acc _ k _ hk.1]

theorem extraFold_mem (l : List (String × List JVal)) (acc : MfProps)
    (kv : String × List JVal) (hkv : kv ∈ l)
    (hnd : (l.map (fun kv => replaceChar kv.1 '_' "-")).Nodup)
    (hacc : ∀ kv' ∈ l, lookupA acc (replaceChar kv'.1 '_' "-") = none) :
    lookupA (l.foldl (fun ps kv => updAssoc ps (replaceChar kv.1 '_' "-") (some kv.2)) acc)
      (replaceChar kv.1 '_' "-") = some (some kv.2) := by
  induction l generalizing acc with
  | nil => exact absurd hkv (by simp)
  | cons a t ih =>
    simp only [List.map_cons, List.nodup_cons] at hnd
    rcases List.mem_cons.mp hkv with heq | hmem
    · subst heq
      rw [List.foldl_cons, extraFold_frame t _ _ hnd.1, lookupA_updAssoc_self]
    · rw [List.foldl_cons]
      refine ih _ hmem hnd.2 ?_
      intro kv' hkv'
      have hne : replaceChar kv'.1 '_' "-" ≠ replaceChar a.1 '_' "-" := by
        intro hc
        exact hnd.1 (hc ▸ List.mem_map_of_mem (fun kv => replaceChar kv.1 '_' "-") hkv')
      rw [lookupA_updAssoc_ne acc _ _ _ hne]
      exact hacc kv' (List.mem_cons_of_mem _ hkv')

theorem extraProps_lookup_not_mem (fm : FrontMatter) (k : String)
    (hk : k ∉ (fm.extra.getD []).map (fun kv => replaceChar kv.1 '_' "-")) :
    lookupA (extraProps fm) k = none := by
  unfold extraProps
  rw [extraFold_frame _ _ _ hk]
  rfl

theorem extraProps_lookup_mem (fm : FrontMatter) (kv : String × List JVal)
    (hkv : kv ∈ fm.extra.getD [])
    (hnd : ((fm.extra.getD []).map (fun kv => replaceChar kv.1 '_' "-")).Nodup) :
    lookupA (extraProps fm) (replaceChar kv.1 '_' "-") = some (some kv.2) :=
  extraFold_mem _ _ kv hkv hnd (fun _ _ => rfl)

/-- Shape of the `updated`-and-beyond tail of `post2json`. -/
theorem afterDate_shape (props : MfProps) (fm : FrontMatter) (ct : String) (mf : MfObj)
    (h : post2jsonAfterDate props fm ct = .ok mf) :
    ∃ P2, mf = post2jsonFinish P2 fm ct ∧
      (∀ k, k ≠ "updated" → lookupA P2 k = lookupA props k) ∧
      (∀ d, fm.updated = some (.dd d) →
        lookupA P2 "updated" = some (some [JVal.js (formatIso d)])) := by
  unfold post2jsonAfterDate at h
  rcases hupd : fm.updated with _ | dv
  · simp only [hupd] at h
    exact ⟨props, (Except.ok.inj h).symm, fun k _ => rfl,
      fun d hd => absurd hd (by simp)⟩
  rcases dv with sv | d
  · simp only [hupd, dateValDt] at h
    rcases hp : parseIso (replaceChar sv 'Z' "+00:00") with _ | d
    · simp only [hp] at h
      exact absurd h (by simp)
    · simp only [hp] at h
      exact ⟨updAssoc props "updated" (some [JVal.js (formatIso d)]),
        (Except.ok.inj h).symm,
        fun k hk => lookupA_updAssoc_ne props _ k _ hk,
        fun d' hd' => absurd hd' (by simp)⟩
  · simp only [hupd, dateValDt] at h
    refine ⟨updAssoc props "updated" (some [JVal.js (formatIso d)]),
      (Except.ok.inj h).symm,
      fun k hk => lookupA_updAssoc_ne props _ k _ hk,
      fun d' hd' => ?_⟩
    have hdd : d = d' := by
      have := Option.some.inj hd'
      cases this
      rfl
    rw [← hdd]
    exact lookupA_updAssoc_self props "updated" _

/-- Shape of a successful `post2json`: there is an intermediate property
list `P2` holding the date steps' output, finished by the category and
content steps. -/
theorem post2json_props_shape (fm : FrontMatter) (ct : String) (mf : MfObj)
    (h : post2json (fm, ct) = .ok mf) :
    ∃ P2, mf = post2jsonFinish P2 fm ct ∧
      (∀ k, k ≠ "published" → k ≠ "updated" →
        lookupA P2 k = lookupA (stepDescr (stepTitle (extraProps fm) fm) fm) k) ∧
      (∀ d, fm.date = some (.dd d) →
        lookupA P2 "published" = some (some [JVal.js (formatIso d)])) ∧
      (∀ d, fm.updated = some (.dd d) →
        lookupA P2 "updated" = some (some [JVal.js (formatIso d)])) := by
  unfold post2json at h
  rcases hdate : fm.date with _ | dv
  · simp only [hdate] at h
    obtain ⟨P2, hmf, hframe, hupd⟩ := afterDate_shape _ fm ct mf h
    exact ⟨P2, hmf, fun k hk1 hk2 => hframe k hk2,
      fun d hd => absurd hd (by simp), hupd⟩
  rcases dv with sv | d
  · simp only [hdate, dateValDt] at h
    rcases hp : parseIso (replaceChar sv 'Z' "+00:00") with _ | d
    · simp only [hp] at h
      exact absurd h (by simp)
    · simp only [hp] at h
      obtain ⟨P2, hmf, hframe, hupd⟩ := afterDate_shape _ fm ct mf h
      refine ⟨P2, hmf, ?_, fun d' hd' => absurd hd' (by simp), hupd⟩
      intro k hk1 hk2
      rw [hframe k hk2, lookupA_updAssoc_ne _ _ k _ hk1]
  · simp only [hdate, dateValDt] at h
    obtain ⟨P2, hmf, hframe, hupd⟩ := afterDate_shape _ fm ct mf h
    refine ⟨P2, hmf, ?_, ?_, hupd⟩
    · intro k hk1 hk2
      rw [hframe k hk2, lookupA_updAssoc_ne _ _ k _ hk1]
    · intro d' hd'
      have hdd : d = d' := by
        have := Option.some.inj hd'
        cases this
        rfl
      rw [hframe "published" (by decide), ← hdd]
      exact lookupA_updAssoc_self _ "published" _


/-- C8 counterexample: `post2json` tags the bag with `type = ["h-entry"]`
(the mf2 vocabulary item), not the claim's `["entry"]`. -/
theorem post2json_type_not_entry :
    (post2json (({} : FrontMatter), "hello")).map MfObj.type = .ok ["h-entry"] ∧
    (["h-entry"] : List String) ≠ ["entry"] :=
  ⟨rfl, by decide⟩

/-- C8 (amended): `post2json` produces `type = ["h-entry"]` (not
`["entry"]`), maps `title→name`, `description→summary`, datetime
`date→published` and `updated→updated` as ISO-8601 strings at second
precision, `taxonomies.tag→category`, passes extra entries through with
`_`→`-` translation, and emits `content` exactly when the body is
non-empty after stripping.  The extra hypotheses require the translated
extra keys to be distinct and not to collide with recognized property
names (Python dict overwrite would otherwise clobber one of the two). -/
theorem post2json_spec (fm : FrontMatter) (ct : String) (mf : MfObj)
    (hnc : ∀ kv ∈ fm.extra.getD [], replaceChar kv.1 '_' "-" ∉
      (["name", "summary", "published", "updated", "category", "content"] : List String))
    (hnd : ((fm.extra.getD []).map (fun kv => replaceChar kv.1 '_' "-")).Nodup)
    (h : post2json (fm, ct) = .ok mf) :
    mf.type = ["h-entry"] ∧
    (∀ t, fm.title = some t → lookupA mf.properties "name" = some (some [t])) ∧
    (∀ d, fm.description = some d → lookupA mf.properties "summary" = some (some [d])) ∧
    (∀ d, fm.date = some (.dd d) →
      lookupA mf.properties "published" = some (some [JVal.js (formatIso d)])) ∧
    (∀ d, fm.updated = some (.dd d) →
      lookupA mf.properties "updated" = some (some [JVal.js (formatIso d)])) ∧
    (∀ tx tags, fm.taxonomies = some tx → lookupA tx "tag" = some tags →
      lookupA mf.properties "category" = some (some tags)) ∧
    (0 < (pyStrip ct).length →
      lookupA mf.properties "content" = some (some [JVal.jo [("markdown", ct)]])) ∧
    ((pyStrip ct).length = 0 → lookupA mf.properties "content" = none) ∧
    (∀ kv ∈ fm.extra.getD [], lookupA mf.properties (replaceChar kv.1 '_' "-")
      = some (some kv.2)) := by
  obtain ⟨P2, hmf, hframe, hpub, hupd⟩ := post2json_props_shape fm ct mf h
  have hrec : ∀ k, k ∈ (["name", "summary", "published", "updated", "category",
      "content"] : List String) →
      k ∉ (fm.extra.getD []).map (fun kv => replaceChar kv.1 '_' "-") := by
    intro k hkrec hkmem
    obtain ⟨kv, hkv, htr⟩ := List.mem_map.mp hkmem
    exact hnc kv hkv (htr ▸ hkrec)
  have hproperties : mf.properties = stepContent (stepCategory P2 fm) ct := by
    rw [hmf]
    rfl
  refine ⟨by rw [hmf]; rfl, ?_, ?_, ?_, ?_, ?_, ?_, ?_, ?_⟩
  · intro t ht
    rw [hproperties, stepContent_lookup_ne _ _ _ (by decide),
      stepCategory_lookup_ne _ _ _ (by decide),
      hframe "name" (by decide) (by decide),
      stepDescr_lookup_ne _ _ _ (by decide),
      stepTitle_lookup_some _ fm t ht]
  · intro d hd
    rw [hproperties, stepContent_lookup_ne _ _ _ (by decide),
      stepCategory_lookup_ne _ _ _ (by decide),
      hframe "summary" (by decide) (by decide),
      stepDescr_lookup_some _ fm d hd]
  · intro d hd
    rw [hproperties, stepContent_lookup_ne _ _ _ (by decide),
      stepCategory_lookup_ne _ _ _ (by decide),
      hpub d hd]
  · intro d hd
    rw [hproperties, stepContent_lookup_ne _ _ _ (by decide),
      stepCategory_lookup_ne _ _ _ (by decide),
      hupd d hd]
  · intro tx tags htx htag
    rw [hproperties, stepContent_lookup_ne _ _ _ (by decide),
      stepCategory_lookup_some _ fm tx tags htx htag]
  · intro hlen
    rw [hproperties, stepContent_lookup_pos _ _ hlen]
  · intro hlen
    rw [hproperties, stepContent_lookup_zero _ _ hlen,
      stepCategory_lookup_ne _ _ _ (by decide),
      hframe "content" (by decide) (by decide),
      stepDescr_lookup_ne _ _ _ (by decide),
      stepTitle_lookup_ne _ _ _ (by decide),
      extraProps_lookup_not_mem fm _ (hrec "content" (by decide))]
  · intro kv hkv
    have hkrec := hnc kv hkv
    simp only [List.mem_cons, List.not_mem_nil, or_false, not_or] at hkrec
    obtain ⟨hk1, hk2, hk3, hk4, hk5, hk6⟩ := hkrec
    rw [hproperties, stepContent_lookup_ne _ _ _ hk6,
      stepCategory_lookup_ne _ _ _ hk5,
      hframe _ hk3 hk4,
      stepDescr_lookup_ne _ _ _ hk2,
      stepTitle_lookup_ne _ _ _ hk1,
      extraProps_lookup_mem fm kv hkv hnd]

/-- A concrete document exercising every branch of `post2json`. -/
def w8fm : FrontMatter :=
  { title := some (.js "T"), description := some (.js "D"),
    date := some (.dd ⟨2024, 1, 2, 3, 4, 5, none⟩),
    updated := some (.dd ⟨2024, 1, 3, 3, 4, 5, none⟩),
    taxonomies := some [("tag", [.js "x", .js "y"])],
    extra := some [("my_key", [.js "v"])] }

/-- Witness for the amended C8, instantiating `post2json_spec` at `w8fm`. -/
theorem post2json_spec_witness :
    (post2json (w8fm, "hello")).map MfObj.type = .ok ["h-entry"] ∧
    ((post2json (w8fm, "hello")).map (fun mf => lookupA mf.properties "name")
      = .ok (some (some [.js "T"]))) ∧
    ((post2json (w8fm, "hello")).map (fun mf => lookupA mf.properties "published")
      = .ok (some (some [.js "2024-01-02T03:04:05"]))) ∧
    ((post2json (w8fm, "hello")).map (fun mf => lookupA mf.properties "my-key")
      = .ok (some (some [.js "v"]))) := by
  have h : post2json (w8fm, "hello") = .ok
      { type := ["h-entry"], properties :=
        [("my-key", some [.js "v"]), ("name", some [.js "T"]), ("summary", some [.js "D"]),
         ("published", some [.js "2024-01-02T03:04:05"]),
         ("updated", some [.js "2024-01-03T03:04:05"]),
         ("category", some [.js "x", .js "y"]),
         ("content", some [.jo [("markdown", "hello")]])] } := by rfl
  have hs := post2json_spec w8fm "hello" _ (by decide) (by decide) h
  refine ⟨by rw [h]; rfl, ?_, ?_, ?_⟩
  · rw [h]
    have := hs.2.1 (.js "T") rfl
    simp only [Except.map]
    rw [this]
  · rw [h]
    have := hs.2.2.2.1 ⟨2024, 1, 2, 3, 4, 5, none⟩ rfl
    simp only [Except.map]
    rw [this]
    rfl
  · rw [h]
    have := hs.2.2.2.2.2.2.2.2 ("my_key", [.js "v"]) (by decide)
    simp only [Except.map]
    rw [show replaceChar "my_key" '_' "-" = "my-key" from rfl] at this
    rw [this]


/-! ### The decode/encode round trip (C4) -/

/-- A datetime string is canonical when re-encoding its parse (after the
`Z` → `+00:00` replacement the decoder applies) gives the string back:
ISO-8601 at second precision with a numeric offset or none. -/
def canonicalIso (s : String) : Prop :=
  (parseIso (replaceChar s 'Z' "+00:00")).map formatIso = some s

instance (s : String) : Decidable (canonicalIso s) := by
  unfold canonicalIso
  infer_instance

theorem except_bind_ok {ε α β : Type} (a : α) (f : α → Except ε β) :
    (Except.ok a : Except ε α) >>= f = f a := rfl

/-- C4 counterexample: a bag with one value per recognized key whose
`content` is a plain string does not round-trip: the encoder always
re-emits `content` as a `{"markdown": …}` object. -/
def c4bag : MfObj :=
  { type := ["h-entry"], properties :=
    [("name", some [.js "T"]), ("summary", some [.js "S"]),
     ("published", some [.js "2024-01-02T03:04:05"]),
     ("updated", some [.js "2024-01-02T03:04:06"]),
     ("category", some [.js "x"]), ("content", some [.js "hello"])] }

theorem roundtrip_string_content_changes :
    ((json2post c4bag).bind post2json).map (fun mf => lookupA mf.properties "content")
      = .ok (some (some [JVal.jo [("markdown", "hello")]])) ∧
    lookupA c4bag.properties "content" = some (some [JVal.js "hello"]) ∧
    (some (some [JVal.jo [("markdown", "hello")]]) : Option PropVal)
      ≠ some (some [JVal.js "hello"]) :=
  ⟨rfl, rfl, by decide⟩

/-- C4 (amended): `post2json (json2post bag)` returns the bag unchanged —
in particular every recognized property is unchanged — for a bag with one
value per recognized key whose `published`/`updated` strings are canonical
ISO-8601 at second precision, and whose `content` is a markdown object
with a body that is non-empty after stripping (a plain-string or
`text`/`value`/`html` content is re-encoded as `{"markdown": …}` and a
`Z`-suffixed or non-canonical datetime is re-encoded in canonical form, so
those do not round-trip as stated by the original claim). -/
theorem json2post_post2json_roundtrip (n s cv : JVal) (pub upd mkd : String)
    (hpub : canonicalIso pub) (hupd : canonicalIso upd)
    (hmkd : 0 < (pyStrip mkd).length) :
    (json2post { type := ["h-entry"], properties :=
        [("name", some [n]), ("summary", some [s]),
         ("published", some [JVal.js pub]), ("updated", some [JVal.js upd]),
         ("category", some [cv]), ("content", some [JVal.jo [("markdown", mkd)]])] }).bind
      post2json
    = .ok { type := ["h-entry"], properties :=
        [("name", some [n]), ("summary", some [s]),
         ("published", some [JVal.js pub]), ("updated", some [JVal.js upd]),
         ("category", some [cv]), ("content", some [JVal.jo [("markdown", mkd)]])] } := by
  have hp : ∃ d, parseIso (replaceChar pub 'Z' "+00:00") = some d ∧ formatIso d = pub := by
    rcases hh : parseIso (replaceChar pub 'Z' "+00:00") with _ | d
    · rw [canonicalIso, hh] at hpub
      simp at hpub
    · rw [canonicalIso, hh] at hpub
      simp at hpub
      exact ⟨d, rfl, hpub⟩
  have hu : ∃ d, parseIso (replaceChar upd 'Z' "+00:00") = some d ∧ formatIso d = upd := by
    rcases hh : parseIso (replaceChar upd 'Z' "+00:00") with _ | d
    · rw [canonicalIso, hh] at hupd
      simp at hupd
    · rw [canonicalIso, hh] at hupd
      simp at hupd
      exact ⟨d, rfl, hupd⟩
  obtain ⟨dp, hdp, hfp⟩ := hp
  obtain ⟨du, hdu, hfu⟩ := hu
  have hjson : json2post { type := ["h-entry"], properties :=
      [("name", some [n]), ("summary", some [s]),
       ("published", some [JVal.js pub]), ("updated", some [JVal.js upd]),
       ("category", some [cv]), ("content", some [JVal.jo [("markdown", mkd)]])] }
      = .ok ({ title := some n, description := some s, date := some (.dd dp),
               updated := some (.dd du), taxonomies := some [("tag", [cv])] }, mkd) := by
    unfold json2post json2post_inner
    simp only [List.foldlM, j2pStep, hdp, hdu, except_bind_ok, lookupA, updAssoc,
      Option.getD, pure, Except.pure]
    rfl
  rw [hjson]
  show post2json (({ title := some n, description := some s,
                     date := some (DateVal.dd dp), updated := some (DateVal.dd du),
                     taxonomies := some [("tag", [cv])] } : FrontMatter), mkd)
    = .ok { type := ["h-entry"], properties :=
        [("name", some [n]), ("summary", some [s]),
         ("published", some [JVal.js pub]), ("updated", some [JVal.js upd]),
         ("category", some [cv]), ("content", some [JVal.jo [("markdown", mkd)]])] }
  unfold post2json post2jsonAfterDate post2jsonFinish
  simp only [dateValDt, stepTitle, stepDescr, stepCategory, stepContent, extraProps,
    Option.getD, List.foldl, lookupA, updAssoc, hfp, hfu, if_pos hmkd]
  simp


/-- Witness for the amended C4 at a concrete bag. -/
theorem json2post_post2json_roundtrip_witness :
    canonicalIso "2024-01-02T03:04:05" ∧ canonicalIso "2024-01-02T03:04:06" ∧
    0 < (pyStrip "hello").length ∧
    (json2post { type := ["h-entry"], properties :=
        [("name", some [.js "T"]), ("summary", some [.js "S"]),
         ("published", some [JVal.js "2024-01-02T03:04:05"]),
         ("updated", some [JVal.js "2024-01-02T03:04:06"]),
         ("category", some [.js "x"]),
         ("content", some [JVal.jo [("markdown", "hello")]])] }).bind post2json
      = .ok { type := ["h-entry"], properties :=
        [("name", some [.js "T"]), ("summary", some [.js "S"]),
         ("published", some [JVal.js "2024-01-02T03:04:05"]),
         ("updated", some [JVal.js "2024-01-02T03:04:06"]),
         ("category", some [.js "x"]),
         ("content", some [JVal.jo [("markdown", "hello")]])] } :=
  ⟨by decide, by decide, by decide,
   json2post_post2json_roundtrip (.js "T") (.js "S") (.js "x")
     "2024-01-02T03:04:05" "2024-01-02T03:04:06" "hello"
     (by decide) (by decide) (by decide)⟩

end Sellout
